import Mathlib

/-!
Verification development for the ATC Risk Tool's conflict & alert engine.

The definitions below are a shallow embedding of the engine code
(`App.tsx`): JavaScript numbers are modelled as real numbers, `null` /
`undefined` fields as `Option`, and `Math.atan2` by an explicit real-valued
`atan2` with the same case analysis.  Date/ISO-string rendering of the
weather time bucket is modelled by the rounded timestamp itself (the
rendering is injective in that timestamp), and free-text `details` strings
omit `toFixed`-style numeric formatting; no property below depends on
either.
-/

noncomputable section

open Real (pi)

/-- `clamp01` from the source: `Math.max(0, Math.min(1, x))`. -/
def clamp01 (x : ℝ) : ℝ := max 0 (min 1 x)

/-- JavaScript's `%` remainder (sign of the dividend, truncated quotient),
over real operands. -/
def jsRem (a b : ℝ) : ℝ :=
  a - b * ((if 0 ≤ a / b then (⌊a / b⌋ : ℤ) else (⌈a / b⌉ : ℤ)) : ℝ)

/-- `normDeg` from the source: wrap an angle difference into `(-180, 180]`
using JavaScript `%`. -/
def normDeg (d : ℝ) : ℝ :=
  let x := jsRem (jsRem d 360 + 360) 360
  if 180 < x then x - 360 else x

/-- `Math.atan2 y x` over real operands (signed zero is irrelevant here:
a real `0` takes the `x = 0` branches, as `Math.atan2` does on `+0`). -/
def atan2 (y x : ℝ) : ℝ :=
  if 0 < x then Real.arctan (y / x)
  else if x < 0 then
    (if 0 ≤ y then Real.arctan (y / x) + pi else Real.arctan (y / x) - pi)
  else
    (if 0 < y then pi / 2 else if y < 0 then -(pi / 2) else 0)

/-- Degrees to radians, `toRad` from the source. -/
def toRad (d : ℝ) : ℝ := d * pi / 180

/-- Radians to degrees, `toDeg` from the source. -/
def toDeg (v : ℝ) : ℝ := v * 180 / pi

/-- `bearingDeg` from the source: initial great-circle bearing, degrees. -/
def bearingDeg (lat1 lon1 lat2 lon2 : ℝ) : ℝ :=
  let φ1 := toRad lat1
  let φ2 := toRad lat2
  let dLon := toRad (lon2 - lon1)
  let y := Real.sin dLon * Real.cos φ2
  let x := Real.cos φ1 * Real.sin φ2 - Real.sin φ1 * Real.cos φ2 * Real.cos dLon
  jsRem (toDeg (atan2 y x) + 360) 360

/-- `headingSpreadDeg` from the source: resultant-vector-length based
circular spread of a list of headings. -/
def headingSpreadDeg (headings : List ℝ) : ℝ :=
  if headings.length < 2 then 0
  else
    let sx := (headings.map (fun h => Real.cos (toRad h))).sum
    let sy := (headings.map (fun h => Real.sin (toRad h))).sum
    let r := Real.sqrt (sx ^ 2 + sy ^ 2) / headings.length
    (1 - r) * 180

/-- `haversineNm` from the source: great-circle distance in nautical miles
on a sphere of radius 6 371 000 m. -/
def haversineNm (lat1 lon1 lat2 lon2 : ℝ) : ℝ :=
  let φ1 := toRad lat1
  let φ2 := toRad lat2
  let dφ := toRad (lat2 - lat1)
  let dlon := toRad (lon2 - lon1)
  let a := Real.sin (dφ / 2) ^ 2 +
    Real.cos φ1 * Real.cos φ2 * Real.sin (dlon / 2) ^ 2
  let c := 2 * atan2 (Real.sqrt a) (Real.sqrt (1 - a))
  6371000 * c / 1852

/-- One point of a per-aircraft trail buffer (`historyRef` entries). -/
structure TrailPoint where
  ts : ℝ
  lat : ℝ
  lon : ℝ
  alt_ft : ℝ := 0
  track_deg : Option ℝ := none

/-- Consecutive bearings of a trail, as built by `computeInstability`. -/
def headingsOf (points : List TrailPoint) : List ℝ :=
  (List.range' 1 (points.length - 1)).map (fun i =>
    let a := points.getD (i - 1) ⟨0, 0, 0, 0, none⟩
    let b := points.getD i ⟨0, 0, 0, 0, none⟩
    bearingDeg a.lat a.lon b.lat b.lon)

/-- Per-step turn rates (deg/s) of a trail, skipping non-positive time
intervals, as built by `computeInstability`. -/
def turnRatesOf (points : List TrailPoint) : List ℝ :=
  let hs := headingsOf points
  (List.range' 1 (hs.length - 1)).filterMap (fun i =>
    let dh := normDeg (hs.getD i 0 - hs.getD (i - 1) 0)
    let dt := ((points.getD (i + 1) ⟨0, 0, 0, 0, none⟩).ts -
      (points.getD i ⟨0, 0, 0, 0, none⟩).ts) / 1000
    if 0 < dt then some (|dh| / dt) else none)

/-- Arithmetic mean, with the source's `length ? sum / length : 0`. -/
def meanOf (l : List ℝ) : ℝ := if l.isEmpty then 0 else l.sum / l.length

/-- `computeInstability` from the source. -/
def computeInstability (points : List TrailPoint) : ℝ :=
  if points.length < 3 then 0
  else
    let spread := headingSpreadDeg (headingsOf points)
    let avgTurn := meanOf (turnRatesOf points)
    clamp01 (max (clamp01 (spread / 25)) (clamp01 (avgTurn / 1.5)))

/-- One sample of an externally projected track (`ProjectedPoint`). -/
structure ProjectedPoint where
  lat : ℝ
  lon : ℝ
  alt_ft : Option ℝ := none
  t_s : Option ℝ := none

/-- An externally projected track (`ProjectedTrack`). -/
structure ProjectedTrack where
  id : String
  points : List ProjectedPoint

/-- A detected separation conflict (`Conflict`). -/
structure Conflict where
  a_id : String
  b_id : String
  cpa_lat : ℝ
  cpa_lon : ℝ
  first_breach_s : ℝ
  min_h_nm : ℝ
  min_v_ft : ℝ

/-- One aircraft of a tick snapshot (`AircraftState`). -/
structure AircraftState where
  id : String
  callsign : Option String := none
  lat : ℝ
  lon : ℝ
  alt_ft : ℝ
  vr_fpm : Option ℝ := none
  track_deg : Option ℝ := none

/-- The canonical unordered-pair key of two aircraft ids, as built by
`conflictKey` (`a < b ? a|b : b|a`, modelled as the sorted pair). -/
def pairKey (x y : String) : String × String := if x < y then (x, y) else (y, x)

/-- `conflictKey` from the source. -/
def conflictKey (c : Conflict) : String × String := pairKey c.a_id c.b_id

/-- `sameConflict` from the source. -/
def sameConflict (a b : Conflict) : Prop := conflictKey a = conflictKey b

instance (a b : Conflict) : Decidable (sameConflict a b) := by
  unfold sameConflict
  infer_instance

/-- `stepSeconds` from the source: the inferred sample step of a track,
`(points[1]?.t_s ?? 0) - (points[0]?.t_s ?? 0)` when positive (it is always
finite here), else the 60 s fallback. -/
def stepSeconds (t : ProjectedTrack) : ℝ :=
  let p0 := t.points.getD 0 {lat := 0, lon := 0}
  let p1 := t.points.getD 1 {lat := 0, lon := 0}
  let dt := p1.t_s.getD 0 - p0.t_s.getD 0
  if 0 < dt then dt else 60

/-- `a.points[k]`, with an out-of-range default (only in-range indices are
ever used by the detector). -/
def trackPt (t : ProjectedTrack) (k : ℕ) : ProjectedPoint :=
  t.points.getD k {lat := 0, lon := 0}

/-- Horizontal separation of two tracks at sample index `k`. -/
def hsep (a b : ProjectedTrack) (k : ℕ) : ℝ :=
  haversineNm (trackPt a k).lat (trackPt a k).lon (trackPt b k).lat (trackPt b k).lon

/-- Vertical separation `|(pa.alt_ft ?? 0) - (pb.alt_ft ?? 0)|` of two
tracks at sample index `k`. -/
def vsep (a b : ProjectedTrack) (k : ℕ) : ℝ :=
  |(trackPt a k).alt_ft.getD 0 - (trackPt b k).alt_ft.getD 0|

/-- State of the per-pair sample walk: `best = some (minH, minV, minIdx)`
once any sample has been seen (`none` models the untouched
`minH = Infinity` initial state, which every real sample beats), and the
first index with a simultaneous breach. -/
structure ScanSt where
  best : Option (ℝ × ℝ × ℕ)
  firstBreach : Option ℕ

/-- One iteration of the detector's inner `for k` loop. -/
def scanStep (a b : ProjectedTrack) (H V : ℝ) (st : ScanSt) (k : ℕ) : ScanSt :=
  let h := hsep a b k
  let v := vsep a b k
  let best :=
    match st.best with
    | none => some (h, v, k)
    | some (mh, mv, mi) => if h < mh then some (h, v, k) else some (mh, mv, mi)
  let fb :=
    match st.firstBreach with
    | some x => some x
    | none => if h < H ∧ v < V then some k else none
  ⟨best, fb⟩

/-- The detector's inner loop over sample indices `k ∈ [0, n)`. -/
def scanPair (a b : ProjectedTrack) (H V : ℝ) (n : ℕ) : ScanSt :=
  (List.range n).foldl (scanStep a b H V) ⟨none, none⟩

/-- The conflict (if any) the detector emits for one ordered pair of
tracks: skip on sample overlap `< 2`, else walk the paired samples and emit
iff some index breaches both thresholds simultaneously. -/
def pairConflict (a b : ProjectedTrack) (H V : ℝ) : Option Conflict :=
  let n := min a.points.length b.points.length
  if n < 2 then none
  else
    let dt := min (stepSeconds a) (stepSeconds b)
    let st := scanPair a b H V n
    match st.firstBreach, st.best with
    | some fb, some (mh, mv, mi) =>
        some { a_id := a.id, b_id := b.id,
               cpa_lat := ((trackPt a mi).lat + (trackPt b mi).lat) / 2,
               cpa_lon := ((trackPt a mi).lon + (trackPt b mi).lon) / 2,
               first_breach_s := fb * dt,
               min_h_nm := mh, min_v_ft := mv }
    | _, _ => none

/-- The index pairs `(i, j)` with `i < j < n`, in the order of the source's
nested `for i` / `for j = i + 1` loops. -/
def pairIndices (n : ℕ) : List (ℕ × ℕ) :=
  (List.range n).flatMap (fun i =>
    (List.range' (i + 1) (n - (i + 1))).map (fun j => (i, j)))

/-- A JavaScript `Map` built from keyed entries, read back in iteration
order: keys in first-insertion order, each carrying the last value written
for it. -/
def jsMapDedup {α κ : Type} [DecidableEq κ] (key : α → κ) : List α → List α
  | [] => []
  | x :: xs =>
      (((x :: xs).reverse.find? (fun y => decide (key y = key x))).getD x) ::
        jsMapDedup key (xs.filter (fun y => !decide (key y = key x)))
termination_by l => l.length
decreasing_by
  simp only [List.length_cons]
  exact Nat.lt_succ_of_le (List.length_filter_le _ _)

/-- `detectSeparationConflicts` from the source: walk every unordered pair
of the id-keyed track map, collect the per-pair conflicts, and sort them
ascending by `first_breach_s` (JavaScript's stable `sort`). -/
def detectSeparationConflicts (tracks : List ProjectedTrack) (H V : ℝ) :
    List Conflict :=
  let byId := jsMapDedup (fun t => t.id) tracks
  let raw := (pairIndices byId.length).filterMap (fun ij =>
    pairConflict (byId.getD ij.1 ⟨"", []⟩) (byId.getD ij.2 ⟨"", []⟩) H V)
  raw.mergeSort (fun x y => decide (x.first_breach_s ≤ y.first_breach_s))

/-- Alert severity, `info < caution < warning`. -/
inductive AlertSeverity where
  | info
  | caution
  | warning
deriving DecidableEq

/-- The five alert kinds. -/
inductive AlertKind where
  | separation
  | weather
  | vertical
  | wake
  | congestion
deriving DecidableEq

/-- `severityRank` from the source. -/
def severityRank : AlertSeverity → ℕ
  | .info => 0
  | .caution => 1
  | .warning => 2

/-- An `Alert`; only separation alerts populate `data` with their
originating `Conflict`. -/
structure Alert where
  id : String
  kind : AlertKind
  severity : AlertSeverity
  title : String
  details : String
  involvedAircraftIds : List String
  lat : ℝ
  lon : ℝ
  time_s : ℤ
  data : Option Conflict := none

/-- `filterAlerts` from the source: visible iff the kind is enabled and the
severity rank is at least the configured minimum. -/
def filterAlerts (alerts : List Alert) (enabled : AlertKind → Bool)
    (minSev : AlertSeverity) : List Alert :=
  alerts.filter (fun a =>
    enabled a.kind && decide (severityRank minSev ≤ severityRank a.severity))

/-- The Montreal reference point `DEFAULT_CENTER`. -/
def DEFAULT_CENTER : ℝ × ℝ := (45.5019, -73.5674)

/-- The separation alert built from one conflict in `recompute`. -/
def mkSepAlert (time_s : ℤ) (c : Conflict) : Alert :=
  { id := "sep-" ++ (conflictKey c).1 ++ "|" ++ (conflictKey c).2 ++ "-" ++
      toString time_s,
    kind := .separation,
    severity := if c.first_breach_s < 180 then .warning
      else if c.first_breach_s < 420 then .caution else .info,
    title := "Separation risk",
    details := c.a_id ++ " x " ++ c.b_id,
    involvedAircraftIds := [c.a_id, c.b_id],
    lat := c.cpa_lat, lon := c.cpa_lon, time_s := time_s, data := some c }

/-- The wake alert (if any) `buildLocalAlerts` pushes for one ordered pair
of snapshot aircraft. -/
def wakeAlertFor (A B : AircraftState) (time_s : ℤ) : Option Alert :=
  let d := haversineNm A.lat A.lon B.lat B.lon
  let dv := |A.alt_ft - B.alt_ft|
  if 2 < d ∨ 700 < dv then none
  else
    let dh := |normDeg (A.track_deg.getD 0 - B.track_deg.getD 0)|
    if 25 < dh then none
    else some
      { id := "local-wake-" ++ A.id ++ "-" ++ B.id ++ "-" ++ toString time_s,
        kind := .wake,
        severity := if d < 1 ∧ dv < 400 then .warning else .caution,
        title := "Potential wake proximity",
        details := A.callsign.getD A.id ++ " - " ++ B.callsign.getD B.id,
        involvedAircraftIds := [A.id, B.id],
        lat := (A.lat + B.lat) / 2, lon := (A.lon + B.lon) / 2,
        time_s := time_s }

/-- The vertical-rate alerts of `buildLocalAlerts`. -/
def verticalAlertsOf (ac : List AircraftState) (time_s : ℤ) : List Alert :=
  ac.filterMap (fun a =>
    let vr : ℝ := a.vr_fpm.getD 0
    if |vr| < 1500 then none
    else some
      { id := "local-vertical-" ++ a.id ++ "-" ++ toString time_s,
        kind := .vertical,
        severity := if 2500 ≤ |vr| then .warning else .caution,
        title := "High vertical rate",
        details := a.callsign.getD a.id,
        involvedAircraftIds := [a.id],
        lat := a.lat, lon := a.lon, time_s := time_s })

/-- The aircraft within 20 NM of the reference point. -/
def withinCenter (ac : List AircraftState) : List AircraftState :=
  ac.filter (fun a =>
    decide (haversineNm DEFAULT_CENTER.1 DEFAULT_CENTER.2 a.lat a.lon ≤ 20))

/-- The congestion alert of `buildLocalAlerts` (one alert when at least 10
aircraft are within 20 NM of the reference point). -/
def congestionAlertsOf (ac : List AircraftState) (time_s : ℤ) : List Alert :=
  if 10 ≤ (withinCenter ac).length then
    [{ id := "local-congestion-" ++ toString time_s,
       kind := .congestion,
       severity := if 15 ≤ (withinCenter ac).length then .warning else .caution,
       title := "Congestion near Montreal",
       details := toString (withinCenter ac).length ++ " aircraft within 20 NM",
       involvedAircraftIds := (withinCenter ac).map (fun x => x.id),
       lat := DEFAULT_CENTER.1, lon := DEFAULT_CENTER.2, time_s := time_s }]
  else []

/-- The wake alerts of `buildLocalAlerts`, over the nested pair loops. -/
def wakeAlertsOf (ac : List AircraftState) (time_s : ℤ) : List Alert :=
  (pairIndices ac.length).filterMap (fun ij =>
    wakeAlertFor (ac.getD ij.1 { id := "", lat := 0, lon := 0, alt_ft := 0 })
      (ac.getD ij.2 { id := "", lat := 0, lon := 0, alt_ft := 0 }) time_s)

/-- `buildLocalAlerts` from the source: vertical-rate alerts, then the
congestion alert, then wake alerts, in push order. -/
def buildLocalAlerts (ac : List AircraftState) (nowMs : ℝ) : List Alert :=
  let time_s : ℤ := ⌊nowMs / 1000⌋
  verticalAlertsOf ac time_s ++ congestionAlertsOf ac time_s ++
    wakeAlertsOf ac time_s

/-- The aircraft `buildWeatherAlerts` samples: those within 120 NM of the
reference point, capped by `.slice(0, 30)` in snapshot order. -/
def weatherCandidates (ac : List AircraftState) : List AircraftState :=
  (ac.filter (fun a =>
    decide (haversineNm DEFAULT_CENTER.1 DEFAULT_CENTER.2 a.lat a.lon ≤ 120))).take 30

/-- `buildWeatherAlerts` from the source, with the external point-intensity
sampler passed explicitly; `timeISO` is the rounded time bucket (`none`
models the null ISO string, which short-circuits to no alerts).  Sampler
failures are already `none` results. -/
def buildWeatherAlerts (sampler : ℝ → ℝ → ℝ → Option ℝ)
    (ac : List AircraftState) (timeMs : ℝ) (timeISO : Option ℝ) : List Alert :=
  match timeISO with
  | none => []
  | some tBucket =>
    let time_s : ℤ := ⌊timeMs / 1000⌋
    (weatherCandidates ac).filterMap (fun a =>
      match sampler a.lat a.lon tBucket with
      | none => none
      | some v =>
        if v ≤ 0 then none
        else some
          { id := "wx-" ++ a.id ++ "-" ++ toString time_s,
            kind := .weather,
            severity := if 30 ≤ v then .warning
              else if 15 ≤ v then .caution else .info,
            title := "Weather near aircraft",
            details := a.callsign.getD a.id,
            involvedAircraftIds := [a.id],
            lat := a.lat, lon := a.lon, time_s := time_s })

/-- A per-aircraft trail buffer entry of `historyRef`. -/
structure TrailEntry where
  callsign : Option String
  points : List TrailPoint

/-- `TRAIL_WINDOW_MS`, the 5-minute trail window. -/
def TRAIL_WINDOW_MS : ℝ := 5 * 60 * 1000

/-- One iteration of `updateHistoryFromAircraft`'s loop: read (or create)
the aircraft's entry, refresh its callsign, push one point at `now`, then
shift points from the front while older than `now - TRAIL_WINDOW_MS`. -/
def historyUpdateOne (nowMs : ℝ) (m : String → Option TrailEntry)
    (a : AircraftState) : String → Option TrailEntry :=
  let entry := (m a.id).getD { callsign := a.callsign, points := [] }
  let cs := a.callsign.orElse (fun _ => entry.callsign)
  let newPt : TrailPoint :=
    { ts := nowMs, lat := a.lat, lon := a.lon, alt_ft := a.alt_ft,
      track_deg := a.track_deg }
  let cutoff := nowMs - TRAIL_WINDOW_MS
  let pts := (entry.points ++ [newPt]).dropWhile (fun p => decide (p.ts < cutoff))
  fun i => if i = a.id then some { callsign := cs, points := pts } else m i

/-- The trail-buffer mutation of `updateHistoryFromAircraft` over a whole
snapshot. -/
def updateHistoryMap (m : String → Option TrailEntry)
    (ac : List AircraftState) (nowMs : ℝ) : String → Option TrailEntry :=
  ac.foldl (historyUpdateOne nowMs) m

/-- `roundToMinutesISO` from the source, modelled by the rounded timestamp
(milliseconds) that the ISO string renders. -/
def roundToMinutesISO (tsMs : ℝ) (minutes : ℕ) : ℝ :=
  let m : ℝ := minutes * 60 * 1000
  (⌊tsMs / m⌋ : ℤ) * m

/-- `recompute`'s `setSelected` updater: clear when no conflicts, keep the
previous selection when its pair key is still detected, else pick the most
urgent conflict. -/
def updateSelection (prev : Option Conflict) (cs : List Conflict) :
    Option Conflict :=
  if cs.isEmpty then none
  else
    match prev with
    | some p => if cs.any (fun c => decide (sameConflict c p)) then some p
        else cs.head?
    | none => cs.head?

/-- The selection-validity effect keyed on `visibleConflicts`: a null
selection adopts the first visible conflict (if any); a selection no longer
visible (by pair key) falls back to `visibleConflicts[0] ?? null`. -/
def reconcileSelection (sel : Option Conflict) (visible : List Conflict) :
    Option Conflict :=
  match sel with
  | none => if visible.isEmpty then none else visible.head?
  | some s => if visible.any (fun c => decide (sameConflict c s)) then some s
      else visible.head?

/-- `visibleConflicts` from the source: visible separation alerts' embedded
conflicts, deduplicated through a key-indexed JavaScript `Map`. -/
def visibleConflictsOf (alerts : List Alert) (enabled : AlertKind → Bool)
    (minSev : AlertSeverity) : List Conflict :=
  let raw := (filterAlerts alerts enabled minSev).filterMap (fun a =>
    if a.kind = .separation then a.data else none)
  jsMapDedup conflictKey raw

/-- The cross-tick engine state (React state plus `historyRef`). -/
structure EngineState where
  aircraft : List AircraftState
  tracks : List ProjectedTrack
  history : String → Option TrailEntry
  alerts : List Alert
  selected : Option Conflict
  weatherTimeISO : Option ℝ

/-- One `recompute` tick.  `proj` is the trajectory projector's result:
`none` models a thrown `projectTracks` (caught in the source, which then
proceeds with `[]` and `setTracks([])`).  `buildWeatherAlerts` receives the
pre-tick `weatherTimeISO`, exactly as the stale closure value in the
source does. -/
def recomputeTick (st : EngineState) (ac : List AircraftState) (timeMs : ℝ)
    (nowMs : ℝ) (proj : Option (List ProjectedTrack))
    (sampler : ℝ → ℝ → ℝ → Option ℝ) : EngineState :=
  let wtNew := roundToMinutesISO timeMs 5
  let history := updateHistoryMap st.history ac nowMs
  let projected := proj.getD []
  let sepConflicts := detectSeparationConflicts projected 5 1000
  let time_s : ℤ := ⌊timeMs / 1000⌋
  let sepAlerts := sepConflicts.map (mkSepAlert time_s)
  let localAlerts := buildLocalAlerts ac timeMs
  let weatherAlerts := buildWeatherAlerts sampler ac timeMs st.weatherTimeISO
  { aircraft := ac,
    tracks := projected,
    history := history,
    alerts := sepAlerts ++ weatherAlerts ++ localAlerts,
    selected := updateSelection st.selected sepConflicts,
    weatherTimeISO := some wtNew }

/-- The selection exposed after a tick's recompute and the subsequent
selection-validity effect. -/
def postEffectSelection (st : EngineState) (enabled : AlertKind → Bool)
    (minSev : AlertSeverity) : Option Conflict :=
  reconcileSelection st.selected (visibleConflictsOf st.alerts enabled minSev)

/-- A simultaneous breach of both separation thresholds at sample `k`. -/
def breachAt (a b : ProjectedTrack) (H V : ℝ) (k : ℕ) : Prop :=
  hsep a b k < H ∧ vsep a b k < V

/-- A concrete projected point at the Montreal reference position. -/
def ctrPoint : ProjectedPoint := { lat := 45.5019, lon := -73.5674 }

/-- A concrete two-sample track pinned at the reference position. -/
def wtrackA : ProjectedTrack := { id := "A", points := [ctrPoint, ctrPoint] }

/-- A second concrete track, identical geometry, distinct id. -/
def wtrackB : ProjectedTrack := { id := "B", points := [ctrPoint, ctrPoint] }

/-- A concrete track set whose single pair is in breach at every sample. -/
def wtracks : List ProjectedTrack := [wtrackA, wtrackB]

/-- The conflict detected on `wtracks`. -/
def cw : Conflict :=
  { a_id := "A", b_id := "B", cpa_lat := 45.5019, cpa_lon := -73.5674,
    first_breach_s := 0, min_h_nm := 0, min_v_ft := 0 }

/-- A concrete aircraft 0.5° of latitude north of the reference point. -/
def wxFar : AircraftState :=
  { id := "FAR", lat := 46.0019, lon := -73.5674, alt_ft := 10000 }

/-- A concrete aircraft exactly at the reference point. -/
def wxNear : AircraftState :=
  { id := "NEAR", lat := 45.5019, lon := -73.5674, alt_ft := 10000 }

/-- A snapshot whose 31st aircraft is strictly nearest to the reference
point but beyond the weather sampling cap. -/
def wxSnapshot : List AircraftState := List.replicate 30 wxFar ++ [wxNear]

/-- A concrete aircraft at the reference point with index-tagged id. -/
def ctrAircraft (k : ℕ) : AircraftState :=
  { id := "AC" ++ toString k, lat := 45.5019, lon := -73.5674, alt_ft := 10000 }

/-- A concrete 10-aircraft snapshot, all at the reference point. -/
def congestedSnapshot : List AircraftState := (List.range 10).map ctrAircraft

/-- An empty engine state for concrete tick instantiations. -/
def emptyState : EngineState :=
  { aircraft := [], tracks := [], history := fun _ => none, alerts := [],
    selected := none, weatherTimeISO := none }

/-- A sampler that always reports no intensity. -/
def nullSampler : ℝ → ℝ → ℝ → Option ℝ := fun _ _ _ => none

end

theorem clamp01_nonneg (x : ℝ) : 0 ≤ clamp01 x := le_max_left _ _

theorem clamp01_le_one (x : ℝ) : clamp01 x ≤ 1 :=
  max_le (by norm_num) (min_le_left _ _)

theorem clamp01_eq_self {x : ℝ} (h0 : 0 ≤ x) (h1 : x ≤ 1) : clamp01 x = x := by
  unfold clamp01
  rw [min_eq_right h1, max_eq_right h0]

/-- C6: the instability score is 0 on fewer than 3 points, always lies in
`[0, 1]`, and on at least 3 points equals the maximum of the clamped
heading-spread term (`spread / 25`) and the clamped mean-turn-rate term
(`meanTurnRate / 1.5`). -/
theorem claim_C6_computeInstability (points : List TrailPoint) :
    (points.length < 3 → computeInstability points = 0) ∧
    0 ≤ computeInstability points ∧ computeInstability points ≤ 1 ∧
    (3 ≤ points.length →
      computeInstability points =
        max (clamp01 (headingSpreadDeg (headingsOf points) / 25))
          (clamp01 (meanOf (turnRatesOf points) / 1.5))) := by
  unfold computeInstability
  by_cases h : points.length < 3
  · rw [if_pos h]
    exact ⟨fun _ => rfl, le_refl 0, by norm_num, fun h3 => absurd h3 (by omega)⟩
  · rw [if_neg h]
    have hmax0 : 0 ≤ max (clamp01 (headingSpreadDeg (headingsOf points) / 25))
        (clamp01 (meanOf (turnRatesOf points) / 1.5)) :=
      le_trans (clamp01_nonneg _) (le_max_left _ _)
    have hmax1 : max (clamp01 (headingSpreadDeg (headingsOf points) / 25))
        (clamp01 (meanOf (turnRatesOf points) / 1.5)) ≤ 1 :=
      max_le (clamp01_le_one _) (clamp01_le_one _)
    exact ⟨fun hlt => absurd hlt h, clamp01_nonneg _, clamp01_le_one _,
      fun _ => clamp01_eq_self hmax0 hmax1⟩

/-- Witness for C6, at the empty trail. -/
theorem claim_C6_witness : computeInstability [] = 0 :=
  (claim_C6_computeInstability []).1 (by simp)

theorem atan2_nonneg {y : ℝ} (x : ℝ) (hy : 0 ≤ y) : 0 ≤ atan2 y x := by
  unfold atan2
  by_cases h1 : 0 < x
  · rw [if_pos h1]
    have hq : 0 ≤ y / x := div_nonneg hy h1.le
    rw [← Real.arctan_zero]
    exact Real.arctan_strictMono.monotone hq
  · rw [if_neg h1]
    by_cases h2 : x < 0
    · rw [if_pos h2, if_pos hy]
      have h := Real.neg_pi_div_two_lt_arctan (y / x)
      have hp := Real.pi_pos
      linarith
    · rw [if_neg h2]
      by_cases h3 : 0 < y
      · rw [if_pos h3]
        have hp := Real.pi_pos
        linarith
      · rw [if_neg h3, if_neg (not_lt.mpr hy)]

theorem haversineNm_nonneg (lat1 lon1 lat2 lon2 : ℝ) :
    0 ≤ haversineNm lat1 lon1 lat2 lon2 := by
  simp only [haversineNm]
  have h := atan2_nonneg
    (Real.sqrt (1 - (Real.sin (toRad (lat2 - lat1) / 2) ^ 2 +
      Real.cos (toRad lat1) * Real.cos (toRad lat2) *
        Real.sin (toRad (lon2 - lon1) / 2) ^ 2)))
    (Real.sqrt_nonneg (Real.sin (toRad (lat2 - lat1) / 2) ^ 2 +
      Real.cos (toRad lat1) * Real.cos (toRad lat2) *
        Real.sin (toRad (lon2 - lon1) / 2) ^ 2))
  apply div_nonneg _ (by norm_num)
  apply mul_nonneg (by norm_num)
  linarith

theorem haversineNm_self (lat lon : ℝ) : haversineNm lat lon lat lon = 0 := by
  simp only [haversineNm]
  have h0 : toRad (lat - lat) = 0 := by
    unfold toRad
    ring
  have h0' : toRad (lon - lon) = 0 := by
    unfold toRad
    ring
  rw [h0, h0']
  norm_num [atan2, Real.arctan_zero]

theorem haversineNm_comm (lat1 lon1 lat2 lon2 : ℝ) :
    haversineNm lat1 lon1 lat2 lon2 = haversineNm lat2 lon2 lat1 lon1 := by
  simp only [haversineNm]
  have e1 : toRad (lat1 - lat2) / 2 = -(toRad (lat2 - lat1) / 2) := by
    unfold toRad
    ring
  have e2 : toRad (lon1 - lon2) / 2 = -(toRad (lon2 - lon1) / 2) := by
    unfold toRad
    ring
  have ha : Real.sin (toRad (lat1 - lat2) / 2) ^ 2 +
      Real.cos (toRad lat2) * Real.cos (toRad lat1) *
        Real.sin (toRad (lon1 - lon2) / 2) ^ 2 =
      Real.sin (toRad (lat2 - lat1) / 2) ^ 2 +
      Real.cos (toRad lat1) * Real.cos (toRad lat2) *
        Real.sin (toRad (lon2 - lon1) / 2) ^ 2 := by
    rw [e1, e2, Real.sin_neg, Real.sin_neg]
    ring
  rw [ha]

/-- C7 (amended): the great-circle distance is symmetric, nonnegative, and
zero on an identical point (the converse is refuted by
`claim_C7_counterexample`). -/
theorem claim_C7_haversine_props (lat1 lon1 lat2 lon2 : ℝ) :
    haversineNm lat1 lon1 lat2 lon2 = haversineNm lat2 lon2 lat1 lon1 ∧
    0 ≤ haversineNm lat1 lon1 lat2 lon2 ∧
    haversineNm lat1 lon1 lat1 lon1 = 0 :=
  ⟨haversineNm_comm lat1 lon1 lat2 lon2, haversineNm_nonneg lat1 lon1 lat2 lon2,
    haversineNm_self lat1 lon1⟩

/-- C7 counterexample: two distinct coordinate pairs, both at the north
pole, have zero `haversineNm` distance, refuting "equals 0 if and only if
p and q are the identical point". -/
theorem claim_C7_counterexample :
    haversineNm 90 0 90 10 = 0 ∧
    ¬(((90 : ℝ), (0 : ℝ)) = ((90 : ℝ), (10 : ℝ))) := by
  constructor
  · simp only [haversineNm]
    have h90 : toRad 90 = Real.pi / 2 := by
      unfold toRad
      ring
    have h0 : toRad (90 - 90) = 0 := by
      unfold toRad
      ring
    rw [h0, h90, Real.cos_pi_div_two]
    norm_num [atan2, Real.arctan_zero]
  · intro h
    have := congrArg Prod.snd h
    norm_num at this

theorem historyUpdateOne_other (nowMs : ℝ) (m : String → Option TrailEntry)
    (a : AircraftState) (i : String) (hi : i ≠ a.id) :
    historyUpdateOne nowMs m a i = m i := by
  unfold historyUpdateOne
  exact if_neg hi

theorem updateHistoryMap_notMem (m : String → Option TrailEntry)
    (ac : List AircraftState) (nowMs : ℝ) (i : String)
    (hi : i ∉ ac.map (fun a => a.id)) :
    updateHistoryMap m ac nowMs i = m i := by
  induction ac generalizing m with
  | nil => rfl
  | cons h t ih =>
    simp only [List.map_cons, List.mem_cons, not_or] at hi
    show updateHistoryMap (historyUpdateOne nowMs m h) t nowMs i = m i
    rw [ih _ (by simpa using hi.2), historyUpdateOne_other nowMs m h i hi.1]

theorem updateHistoryMap_mem (m : String → Option TrailEntry)
    (ac : List AircraftState) (nowMs : ℝ)
    (hn : (ac.map (fun a => a.id)).Nodup) (a : AircraftState) (ha : a ∈ ac) :
    updateHistoryMap m ac nowMs a.id =
      some { callsign := a.callsign.orElse
               (fun _ => ((m a.id).getD ⟨a.callsign, []⟩).callsign),
             points := (((m a.id).getD ⟨a.callsign, []⟩).points ++
               [({ ts := nowMs, lat := a.lat, lon := a.lon, alt_ft := a.alt_ft, track_deg := a.track_deg } : TrailPoint)]).dropWhile
                 (fun p => decide (p.ts < nowMs - TRAIL_WINDOW_MS)) } := by
  induction ac generalizing m with
  | nil => cases ha
  | cons h t ih =>
    simp only [List.map_cons, List.nodup_cons] at hn
    rcases List.mem_cons.mp ha with rfl | hat
    · show updateHistoryMap (historyUpdateOne nowMs m a) t nowMs a.id = _
      rw [updateHistoryMap_notMem _ _ _ _ hn.1]
      unfold historyUpdateOne
      rw [if_pos rfl]
    · have hne : a.id ≠ h.id := by
        intro he
        exact hn.1 (he ▸ List.mem_map.mpr ⟨a, hat, rfl⟩)
      show updateHistoryMap (historyUpdateOne nowMs m h) t nowMs a.id = _
      rw [ih _ hn.2 hat, historyUpdateOne_other nowMs m h a.id hne]

theorem dropWhile_eq_filter_of_sorted {l : List TrailPoint} (c : ℝ)
    (hs : l.Pairwise (fun p q => p.ts ≤ q.ts)) :
    l.dropWhile (fun p => decide (p.ts < c)) =
    l.filter (fun p => !decide (p.ts < c)) := by
  induction l with
  | nil => rfl
  | cons x xs ih =>
    rcases List.pairwise_cons.mp hs with ⟨hx, hxs⟩
    by_cases h : x.ts < c
    · rw [List.dropWhile_cons_of_pos (by simpa using h),
        List.filter_cons_of_neg (by simpa using h)]
      exact ih hxs
    · rw [List.dropWhile_cons_of_neg (by simpa using h),
        List.filter_cons_of_pos (by simpa using h)]
      congr 1
      symm
      rw [List.filter_eq_self]
      intro q hq
      have hcq : c ≤ q.ts := le_trans (not_lt.mp h) (hx q hq)
      simpa using not_lt.mpr hcq

/-- C10: on a history update, every snapshot aircraft gets exactly one
point appended (timestamped `now`) and then its points older than
`now - TRAIL_WINDOW_MS` evicted from the front (equivalently, filtered
out, under the time-sortedness invariant of trails), while the entry of
every id absent from the snapshot is left unchanged. -/
theorem claim_C10_historyUpdate (m : String → Option TrailEntry)
    (ac : List AircraftState) (nowMs : ℝ)
    (hn : (ac.map (fun a => a.id)).Nodup) :
    (∀ i, i ∉ ac.map (fun a => a.id) → updateHistoryMap m ac nowMs i = m i) ∧
    (∀ a ∈ ac, ∃ e, updateHistoryMap m ac nowMs a.id = some e ∧
      e.points = (((m a.id).getD ⟨a.callsign, []⟩).points ++
        [({ ts := nowMs, lat := a.lat, lon := a.lon, alt_ft := a.alt_ft, track_deg := a.track_deg } : TrailPoint)]).dropWhile
          (fun p => decide (p.ts < nowMs - TRAIL_WINDOW_MS)) ∧
      (((m a.id).getD ⟨a.callsign, []⟩).points.Pairwise
          (fun p q => p.ts ≤ q.ts) →
       (∀ p ∈ ((m a.id).getD ⟨a.callsign, []⟩).points, p.ts ≤ nowMs) →
        e.points = (((m a.id).getD ⟨a.callsign, []⟩).points ++
          [({ ts := nowMs, lat := a.lat, lon := a.lon, alt_ft := a.alt_ft, track_deg := a.track_deg } : TrailPoint)]).filter
            (fun p => !decide (p.ts < nowMs - TRAIL_WINDOW_MS)))) := by
  constructor
  · exact fun i hi => updateHistoryMap_notMem m ac nowMs i hi
  · intro a ha
    refine ⟨_, updateHistoryMap_mem m ac nowMs hn a ha, rfl, ?_⟩
    intro hsorted hle
    apply dropWhile_eq_filter_of_sorted
    rw [List.pairwise_append]
    refine ⟨hsorted, List.pairwise_singleton _ _, ?_⟩
    intro p hp q hq
    rcases List.mem_singleton.mp hq with rfl
    exact hle p hp

/-- Witness for C10: an id absent from the snapshot keeps its (empty)
entry. -/
theorem claim_C10_witness :
    updateHistoryMap (fun _ => none) [ctrAircraft 0] 0 "X" = none :=
  (claim_C10_historyUpdate (fun _ => none) [ctrAircraft 0] 0
    (by simp)).1 "X" (by simp [ctrAircraft]; decide)

theorem mem_pairIndices {n i j : ℕ} : (i, j) ∈ pairIndices n ↔ i < j ∧ j < n := by
  unfold pairIndices
  simp only [List.mem_flatMap, List.mem_map, List.mem_range]
  constructor
  · rintro ⟨a, ha, b, hb, heq⟩
    obtain ⟨rfl, rfl⟩ : a = i ∧ b = j := by
      constructor
      · exact congrArg Prod.fst heq
      · exact congrArg Prod.snd heq
    rw [List.mem_range'] at hb
    obtain ⟨k, hk, rfl⟩ := hb
    omega
  · rintro ⟨hij, hj⟩
    refine ⟨i, by omega, j, ?_, rfl⟩
    rw [List.mem_range']
    exact ⟨j - (i + 1), by omega, by omega⟩

theorem nodup_pairIndices (n : ℕ) : (pairIndices n).Nodup := by
  unfold pairIndices
  apply List.nodup_flatMap.mpr
  constructor
  · intro i _
    exact (List.nodup_range' _ _).map (fun a b h => congrArg Prod.snd h)
  · apply (List.nodup_range n).imp
    intro a b hne x hxa hxb
    rcases List.mem_map.mp hxa with ⟨_, _, rfl⟩
    rcases List.mem_map.mp hxb with ⟨_, _, h⟩
    exact hne (congrArg Prod.fst h).symm

theorem countP_filterMap_zero {ι β : Type} (l : List ι) (f : ι → Option β)
    (p : β → Bool) (h : ∀ x ∈ l, ∀ c, f x = some c → p c = false) :
    (l.filterMap f).countP p = 0 := by
  rw [List.countP_eq_zero]
  intro b hb
  rcases List.mem_filterMap.mp hb with ⟨x, hx, hfx⟩
  simp [h x hx b hfx]

theorem countP_filterMap_unique {ι β : Type} (l : List ι)
    (f : ι → Option β) (p : β → Bool) (x0 : ι) (hmem : x0 ∈ l)
    (hnd : l.Nodup)
    (hother : ∀ x ∈ l, x ≠ x0 → ∀ c, f x = some c → p c = false) :
    (l.filterMap f).countP p =
      (match f x0 with
       | some c => if p c then 1 else 0
       | none => 0) := by
  induction l with
  | nil => cases hmem
  | cons x xs ih =>
    rcases List.nodup_cons.mp hnd with ⟨hx_nin, hnd2⟩
    rcases List.mem_cons.mp hmem with rfl | hmem2
    · rw [List.filterMap_cons]
      have hz : (xs.filterMap f).countP p = 0 := by
        apply countP_filterMap_zero
        intro y hy c hc
        exact hother y (List.mem_cons_of_mem _ hy)
          (fun he => hx_nin (he ▸ hy)) c hc
      cases hfx : f x0 with
      | none => simpa [hfx] using hz
      | some c => simp [List.countP_cons, hz, hfx]
    · have hxn : x ≠ x0 := fun he => hx_nin (he ▸ hmem2)
      rw [List.filterMap_cons]
      have ihv := ih hmem2 hnd2
        (fun y hy => hother y (List.mem_cons_of_mem _ hy))
      cases hfx : f x with
      | none => exact ihv
      | some c =>
        have hpc := hother x (List.mem_cons_self _ _) hxn c hfx
        simp [List.countP_cons, hpc, ihv]

theorem pairKey_eq_iff {x y u v : String} (hxy : x ≠ y) (huv : u ≠ v) :
    pairKey x y = pairKey u v ↔ (x = u ∧ y = v) ∨ (x = v ∧ y = u) := by
  unfold pairKey
  by_cases h1 : x < y <;> by_cases h2 : u < v <;>
    simp only [h1, h2, if_pos, if_neg, if_true, if_false, Prod.mk.injEq]
  · constructor
    · exact fun h => Or.inl h
    · rintro (h | ⟨rfl, rfl⟩)
      · exact h
      · exact absurd h1 (not_lt.mpr h2.le)
  · constructor
    · rintro ⟨rfl, rfl⟩
      exact Or.inr ⟨rfl, rfl⟩
    · rintro (⟨rfl, rfl⟩ | h)
      · exact absurd h1 h2
      · exact h
  · constructor
    · rintro ⟨rfl, rfl⟩
      exact Or.inr ⟨rfl, rfl⟩
    · rintro (⟨rfl, rfl⟩ | h)
      · exact absurd h2 h1
      · exact ⟨h.2, h.1⟩
  · have hyx : y < x := hxy.lt_or_lt.resolve_left h1
    have hvu : v < u := huv.lt_or_lt.resolve_left h2
    constructor
    · rintro ⟨rfl, rfl⟩
      exact Or.inl ⟨rfl, rfl⟩
    · rintro (⟨rfl, rfl⟩ | ⟨rfl, rfl⟩)
      · exact ⟨rfl, rfl⟩
      · exact absurd hvu (not_lt.mpr hyx.le)

theorem wakeAlertFor_isSome_iff (A B : AircraftState) (t : ℤ) :
    (wakeAlertFor A B t).isSome ↔
      haversineNm A.lat A.lon B.lat B.lon ≤ 2 ∧ |A.alt_ft - B.alt_ft| ≤ 700 ∧
      |normDeg (A.track_deg.getD 0 - B.track_deg.getD 0)| ≤ 25 := by
  unfold wakeAlertFor
  by_cases h1 : 2 < haversineNm A.lat A.lon B.lat B.lon ∨ 700 < |A.alt_ft - B.alt_ft|
  · rw [if_pos h1]
    simp only [Option.isSome_none, Bool.false_eq_true, false_iff]
    rintro ⟨ha, hb, -⟩
    rcases h1 with h | h
    · exact absurd ha (not_le.mpr h)
    · exact absurd hb (not_le.mpr h)
  · rw [if_neg h1]
    push_neg at h1
    by_cases h2 : 25 < |normDeg (A.track_deg.getD 0 - B.track_deg.getD 0)|
    · rw [if_pos h2]
      simp only [Option.isSome_none, Bool.false_eq_true, false_iff]
      rintro ⟨-, -, hc⟩
      exact absurd hc (not_le.mpr h2)
    · rw [if_neg h2]
      simp only [Option.isSome_some, true_iff]
      exact ⟨h1.1, h1.2, not_lt.mp h2⟩

theorem wakeAlertFor_some_fields {A B : AircraftState} {t : ℤ} {al : Alert}
    (h : wakeAlertFor A B t = some al) :
    al.kind = AlertKind.wake ∧ al.involvedAircraftIds = [A.id, B.id] ∧
    al.severity = (if haversineNm A.lat A.lon B.lat B.lon < 1 ∧
        |A.alt_ft - B.alt_ft| < 400 then AlertSeverity.warning
      else AlertSeverity.caution) := by
  unfold wakeAlertFor at h
  dsimp only at h
  by_cases h1 : 2 < haversineNm A.lat A.lon B.lat B.lon ∨ 700 < |A.alt_ft - B.alt_ft|
  · rw [if_pos h1] at h
    cases h
  · rw [if_neg h1] at h
    by_cases h2 : 25 < |normDeg (A.track_deg.getD 0 - B.track_deg.getD 0)|
    · rw [if_pos h2] at h
      cases h
    · rw [if_neg h2] at h
      injection h with h
      subst h
      exact ⟨rfl, rfl, rfl⟩

theorem mem_verticalAlertsOf_kind {ac : List AircraftState} {t : ℤ} {al : Alert}
    (h : al ∈ verticalAlertsOf ac t) : al.kind = AlertKind.vertical := by
  rcases List.mem_filterMap.mp h with ⟨a, _, hf⟩
  dsimp only at hf
  by_cases h1 : |(a.vr_fpm.getD 0 : ℝ)| < 1500
  · rw [if_pos h1] at hf
    cases hf
  · rw [if_neg h1] at hf
    injection hf with hf
    subst hf
    rfl

theorem mem_congestionAlertsOf_kind {ac : List AircraftState} {t : ℤ} {al : Alert}
    (h : al ∈ congestionAlertsOf ac t) : al.kind = AlertKind.congestion := by
  unfold congestionAlertsOf at h
  by_cases h1 : 10 ≤ (withinCenter ac).length
  · rw [if_pos h1] at h
    rcases List.mem_singleton.mp h with rfl
    rfl
  · rw [if_neg h1] at h
    cases h

theorem nodup_ids_get_inj {ac : List AircraftState}
    (hn : (ac.map (fun a => a.id)).Nodup) {i1 i2 : ℕ}
    (h1 : i1 < ac.length) (h2 : i2 < ac.length)
    (he : (ac.get ⟨i1, h1⟩).id = (ac.get ⟨i2, h2⟩).id) : i1 = i2 := by
  have hm1 : i1 < (List.map (fun a => a.id) ac).length := by simpa using h1
  have hm2 : i2 < (List.map (fun a => a.id) ac).length := by simpa using h2
  have hmeq : (List.map (fun a => a.id) ac)[i1] = (List.map (fun a => a.id) ac)[i2] := by
    rw [List.getElem_map, List.getElem_map]
    simpa [List.get_eq_getElem] using he
  exact hn.getElem_inj_iff.mp hmeq

/-- C4: for each unordered snapshot pair, exactly one wake alert is emitted
iff horizontal distance ≤ 2 NM, vertical separation ≤ 700 ft and wrapped
heading difference ≤ 25°, and its severity is warning iff distance < 1 NM
and vertical separation < 400 ft (caution otherwise). -/
theorem claim_C4_wakeAlerts (ac : List AircraftState) (nowMs : ℝ)
    (hn : (ac.map (fun a => a.id)).Nodup) (i j : ℕ) (hij : i < j)
    (hj : j < ac.length) (A B : AircraftState)
    (hA : ac.get ⟨i, Nat.lt_trans hij hj⟩ = A) (hB : ac.get ⟨j, hj⟩ = B) :
    ((buildLocalAlerts ac nowMs).countP (fun al =>
        decide (al.kind = AlertKind.wake ∧
          al.involvedAircraftIds = [A.id, B.id])) =
      if haversineNm A.lat A.lon B.lat B.lon ≤ 2 ∧
          |A.alt_ft - B.alt_ft| ≤ 700 ∧
          |normDeg (A.track_deg.getD 0 - B.track_deg.getD 0)| ≤ 25
        then 1 else 0) ∧
    (∀ al ∈ buildLocalAlerts ac nowMs, al.kind = AlertKind.wake →
      al.involvedAircraftIds = [A.id, B.id] →
      al.severity = (if haversineNm A.lat A.lon B.lat B.lon < 1 ∧
          |A.alt_ft - B.alt_ft| < 400 then AlertSeverity.warning
        else AlertSeverity.caution)) := by
  have hi : i < ac.length := Nat.lt_trans hij hj
  have hgdA : ac.getD i { id := "", lat := 0, lon := 0, alt_ft := 0 } = A := by
    rw [List.getD_eq_getElem _ _ hi, ← hA, List.get_eq_getElem]
  have hgdB : ac.getD j { id := "", lat := 0, lon := 0, alt_ft := 0 } = B := by
    rw [List.getD_eq_getElem _ _ hj, ← hB, List.get_eq_getElem]
  have hother : ∀ x ∈ pairIndices ac.length, x ≠ (i, j) → ∀ c,
      wakeAlertFor (ac.getD x.1 { id := "", lat := 0, lon := 0, alt_ft := 0 })
        (ac.getD x.2 { id := "", lat := 0, lon := 0, alt_ft := 0 })
        ⌊nowMs / 1000⌋ = some c →
      (decide (c.kind = AlertKind.wake ∧
        c.involvedAircraftIds = [A.id, B.id])) = false := by
    rintro ⟨i2, j2⟩ hmem hne c hcEq
    rcases mem_pairIndices.mp hmem with ⟨hij2, hj2⟩
    have h2i : i2 < ac.length := Nat.lt_trans hij2 hj2
    rcases wakeAlertFor_some_fields hcEq with ⟨-, hinv, -⟩
    apply decide_eq_false
    rintro ⟨-, hinvAB⟩
    rw [hinv] at hinvAB
    rw [List.getD_eq_getElem _ _ h2i, List.getD_eq_getElem _ _ hj2] at hinvAB
    have hpair := List.cons_eq_cons.mp hinvAB
    have htail := List.cons_eq_cons.mp hpair.2
    have hieq : i2 = i := nodup_ids_get_inj hn h2i hi
      (by rw [List.get_eq_getElem, hpair.1, ← hA, List.get_eq_getElem])
    have hjeq : j2 = j := nodup_ids_get_inj hn hj2 hj
      (by rw [List.get_eq_getElem, htail.1, ← hB, List.get_eq_getElem])
    exact hne (by rw [hieq, hjeq])
  constructor
  · show (List.countP _ (verticalAlertsOf ac ⌊nowMs / 1000⌋ ++
      congestionAlertsOf ac ⌊nowMs / 1000⌋ ++ wakeAlertsOf ac ⌊nowMs / 1000⌋)) = _
    rw [List.countP_append, List.countP_append]
    have hv : (verticalAlertsOf ac ⌊nowMs / 1000⌋).countP (fun al =>
        decide (al.kind = AlertKind.wake ∧
          al.involvedAircraftIds = [A.id, B.id])) = 0 := by
      rw [List.countP_eq_zero]
      intro al hal
      simp [mem_verticalAlertsOf_kind hal]
    have hcg : (congestionAlertsOf ac ⌊nowMs / 1000⌋).countP (fun al =>
        decide (al.kind = AlertKind.wake ∧
          al.involvedAircraftIds = [A.id, B.id])) = 0 := by
      rw [List.countP_eq_zero]
      intro al hal
      simp [mem_congestionAlertsOf_kind hal]
    rw [hv, hcg]
    unfold wakeAlertsOf
    rw [countP_filterMap_unique _ _ _ (i, j)
      (mem_pairIndices.mpr ⟨hij, hj⟩) (nodup_pairIndices _) hother]
    dsimp only
    rw [hgdA, hgdB]
    cases hw : wakeAlertFor A B ⌊nowMs / 1000⌋ with
    | none =>
      have hns : ¬(haversineNm A.lat A.lon B.lat B.lon ≤ 2 ∧
          |A.alt_ft - B.alt_ft| ≤ 700 ∧
          |normDeg (A.track_deg.getD 0 - B.track_deg.getD 0)| ≤ 25) := by
        rw [← wakeAlertFor_isSome_iff A B ⌊nowMs / 1000⌋, hw]
        simp
      rw [if_neg hns]
      simp
    | some c =>
      have hs : haversineNm A.lat A.lon B.lat B.lon ≤ 2 ∧
          |A.alt_ft - B.alt_ft| ≤ 700 ∧
          |normDeg (A.track_deg.getD 0 - B.track_deg.getD 0)| ≤ 25 := by
        rw [← wakeAlertFor_isSome_iff A B ⌊nowMs / 1000⌋, hw]
        simp
      rcases wakeAlertFor_some_fields hw with ⟨hk, hinv, -⟩
      rw [if_pos hs]
      simp [hk, hinv]
  · intro al hal hk hinv
    rcases List.mem_append.mp hal with hal2 | halw
    · rcases List.mem_append.mp hal2 with halv | halc
      · rw [mem_verticalAlertsOf_kind halv] at hk
        cases hk
      · rw [mem_congestionAlertsOf_kind halc] at hk
        cases hk
    · rcases List.mem_filterMap.mp halw with ⟨⟨i2, j2⟩, hmem, hcEq⟩
      rcases mem_pairIndices.mp hmem with ⟨hij2, hj2⟩
      have h2i : i2 < ac.length := Nat.lt_trans hij2 hj2
      rcases wakeAlertFor_some_fields hcEq with ⟨-, hinv2, hsev⟩
      rw [hinv2] at hinv
      rw [List.getD_eq_getElem _ _ h2i, List.getD_eq_getElem _ _ hj2] at hinv
      have hpair := List.cons_eq_cons.mp hinv
      have htail := List.cons_eq_cons.mp hpair.2
      have hieq : i2 = i := nodup_ids_get_inj hn h2i hi
        (by rw [List.get_eq_getElem, hpair.1, ← hA, List.get_eq_getElem])
      have hjeq : j2 = j := nodup_ids_get_inj hn hj2 hj
        (by rw [List.get_eq_getElem, htail.1, ← hB, List.get_eq_getElem])
      subst hieq
      subst hjeq
      rw [List.getD_eq_getElem _ _ h2i] at hsev
      rw [List.getD_eq_getElem _ _ hj2] at hsev
      rw [List.get_eq_getElem] at hA hB
      rw [hA, hB] at hsev
      exact hsev

theorem normDeg_zero : normDeg 0 = 0 := by
  unfold normDeg jsRem
  norm_num

/-- Witness for C4: two co-located, same-heading aircraft yield exactly one
wake alert. -/
theorem claim_C4_witness :
    (buildLocalAlerts [ctrAircraft 0, ctrAircraft 1] 0).countP (fun al =>
      decide (al.kind = AlertKind.wake ∧
        al.involvedAircraftIds = [(ctrAircraft 0).id, (ctrAircraft 1).id])) = 1 := by
  have h := claim_C4_wakeAlerts [ctrAircraft 0, ctrAircraft 1] 0
    (by decide) 0 1 (by norm_num) (by simp) (ctrAircraft 0) (ctrAircraft 1)
    rfl rfl
  rw [h.1, if_pos]
  refine ⟨?_, ?_, ?_⟩
  · show haversineNm 45.5019 (-73.5674) 45.5019 (-73.5674) ≤ 2
    rw [haversineNm_self]
    norm_num
  · show |(10000 : ℝ) - 10000| ≤ 700
    norm_num
  · show |normDeg ((none : Option ℝ).getD 0 - (none : Option ℝ).getD 0)| ≤ 25
    simp [normDeg_zero]

theorem scanPair_zero (a b : ProjectedTrack) (H V : ℝ) :
    scanPair a b H V 0 = ⟨none, none⟩ := rfl

theorem scanPair_succ (a b : ProjectedTrack) (H V : ℝ) (n : ℕ) :
    scanPair a b H V (n + 1) = scanStep a b H V (scanPair a b H V n) n := by
  unfold scanPair
  rw [List.range_succ, List.foldl_append]
  rfl

theorem scanPair_fb_none_iff (a b : ProjectedTrack) (H V : ℝ) (n : ℕ) :
    (scanPair a b H V n).firstBreach = none ↔
      ∀ k < n, ¬breachAt a b H V k := by
  induction n with
  | zero => simp [scanPair_zero]
  | succ m ih =>
    rw [scanPair_succ]
    unfold scanStep
    cases hfb : (scanPair a b H V m).firstBreach with
    | some x =>
      simp only [hfb]
      constructor
      · intro h
        cases h
      · intro h
        have : (scanPair a b H V m).firstBreach = none :=
          ih.mpr (fun k hk => h k (Nat.lt_succ_of_lt hk))
        rw [hfb] at this
        cases this
    | none =>
      simp only [hfb]
      have hm := ih.mp hfb
      by_cases hbr : hsep a b m < H ∧ vsep a b m < V
      · rw [if_pos hbr]
        constructor
        · intro h
          cases h
        · intro h
          exact absurd hbr (h m (Nat.lt_succ_self m))
      · rw [if_neg hbr]
        constructor
        · intro _ k hk
          rcases Nat.lt_succ_iff_lt_or_eq.mp hk with hk2 | rfl
          · exact hm k hk2
          · exact hbr
        · intro _
          rfl

theorem scanPair_fb_some (a b : ProjectedTrack) (H V : ℝ) (n : ℕ) (j : ℕ)
    (h : (scanPair a b H V n).firstBreach = some j) :
    j < n ∧ breachAt a b H V j ∧ ∀ k < j, ¬breachAt a b H V k := by
  induction n with
  | zero => cases h
  | succ m ih =>
    rw [scanPair_succ] at h
    unfold scanStep at h
    dsimp only at h
    cases hfb : (scanPair a b H V m).firstBreach with
    | some x =>
      rw [hfb] at h
      injection h with h
      subst h
      rcases ih hfb with ⟨h1, h2, h3⟩
      exact ⟨Nat.lt_succ_of_lt h1, h2, h3⟩
    | none =>
      rw [hfb] at h
      by_cases hbr : hsep a b m < H ∧ vsep a b m < V
      · rw [if_pos hbr] at h
        injection h with h
        subst h
        exact ⟨Nat.lt_succ_self m, hbr,
          (scanPair_fb_none_iff a b H V m).mp hfb⟩
      · rw [if_neg hbr] at h
        cases h

theorem scanPair_best_none_iff (a b : ProjectedTrack) (H V : ℝ) (n : ℕ) :
    (scanPair a b H V n).best = none ↔ n = 0 := by
  cases n with
  | zero => simp [scanPair_zero]
  | succ m =>
    rw [scanPair_succ]
    unfold scanStep
    cases hb : (scanPair a b H V m).best with
    | none => simp
    | some t =>
      obtain ⟨mh, mv, mi⟩ := t
      by_cases hlt : hsep a b m < mh
      · simp [hlt]
      · simp [hlt]

theorem scanPair_best_spec (a b : ProjectedTrack) (H V : ℝ) (n : ℕ)
    (hn : 1 ≤ n) :
    ∃ mh mv mi, (scanPair a b H V n).best = some (mh, mv, mi) ∧ mi < n ∧
      mh = hsep a b mi ∧ mv = vsep a b mi ∧ ∀ k < n, mh ≤ hsep a b k := by
  induction n with
  | zero => omega
  | succ m ih =>
    rw [scanPair_succ]
    unfold scanStep
    cases hb : (scanPair a b H V m).best with
    | none =>
      have hm0 : m = 0 := (scanPair_best_none_iff a b H V m).mp hb
      subst hm0
      refine ⟨hsep a b 0, vsep a b 0, 0, rfl, Nat.one_pos, rfl, rfl, ?_⟩
      intro k hk
      interval_cases k
      exact le_refl _
    | some t =>
      obtain ⟨mh, mv, mi⟩ := t
      have hm1 : 1 ≤ m := by
        by_contra hc
        have : m = 0 := by omega
        subst this
        rw [scanPair_zero] at hb
        cases hb
      rcases ih hm1 with ⟨mh2, mv2, mi2, hbeq, hmi2, hh2, hv2, hmin2⟩
      rw [hb] at hbeq
      injection hbeq with hbeq
      have e1 : mh2 = mh := congrArg (fun p => p.1) hbeq.symm
      have e2 : mv2 = mv := congrArg (fun p => p.2.1) hbeq.symm
      have e3 : mi2 = mi := congrArg (fun p => p.2.2) hbeq.symm
      rw [e1, e3] at hh2
      rw [e2, e3] at hv2
      rw [e3] at hmi2
      rw [e1] at hmin2
      by_cases hlt : hsep a b m < mh
      · refine ⟨hsep a b m, vsep a b m, m, by dsimp only; rw [if_pos hlt],
          Nat.lt_succ_self m, rfl, rfl, ?_⟩
        intro k hk
        rcases Nat.lt_succ_iff_lt_or_eq.mp hk with hk2 | rfl
        · exact le_trans hlt.le (hh2 ▸ hmin2 k hk2)
        · exact le_refl _
      · refine ⟨mh, mv, mi, by dsimp only; rw [if_neg hlt],
          Nat.lt_succ_of_lt hmi2, hh2, hv2, ?_⟩
        intro k hk
        rcases Nat.lt_succ_iff_lt_or_eq.mp hk with hk2 | rfl
        · exact hmin2 k hk2
        · exact not_lt.mp hlt

theorem pairConflict_none_of_lt {a b : ProjectedTrack} {H V : ℝ}
    (h : min a.points.length b.points.length < 2) :
    pairConflict a b H V = none := by
  unfold pairConflict
  rw [if_pos h]

theorem pairConflict_isSome_iff (a b : ProjectedTrack) (H V : ℝ) :
    (pairConflict a b H V).isSome ↔
      2 ≤ min a.points.length b.points.length ∧
      ∃ k < min a.points.length b.points.length, breachAt a b H V k := by
  unfold pairConflict
  by_cases hlt : min a.points.length b.points.length < 2
  · rw [if_pos hlt]
    simp only [Option.isSome_none, Bool.false_eq_true, false_iff, not_and]
    intro h2
    omega
  · rw [if_neg hlt]
    push_neg at hlt
    dsimp only
    cases hfb : (scanPair a b H V
        (min a.points.length b.points.length)).firstBreach with
    | none =>
      cases hb : (scanPair a b H V
          (min a.points.length b.points.length)).best with
      | none =>
        dsimp only
        simp only [Option.isSome_none, Bool.false_eq_true, false_iff, not_and]
        intro _
        rintro ⟨k, hk, hbr⟩
        exact (scanPair_fb_none_iff a b H V _).mp hfb k hk hbr
      | some t =>
        obtain ⟨mh, mv, mi⟩ := t
        dsimp only
        simp only [Option.isSome_none, Bool.false_eq_true, false_iff, not_and]
        intro _
        rintro ⟨k, hk, hbr⟩
        exact (scanPair_fb_none_iff a b H V _).mp hfb k hk hbr
    | some fb =>
      rcases scanPair_best_spec a b H V (min a.points.length b.points.length)
        (by omega) with ⟨mh, mv, mi, hbe, -, -, -, -⟩
      rw [hbe]
      simp only [Option.isSome_some, true_iff]
      rcases scanPair_fb_some a b H V _ fb hfb with ⟨h1, h2, -⟩
      exact ⟨hlt, fb, h1, h2⟩

theorem pairConflict_some_spec {a b : ProjectedTrack} {H V : ℝ} {c : Conflict}
    (h : pairConflict a b H V = some c) :
    c.a_id = a.id ∧ c.b_id = b.id ∧
    2 ≤ min a.points.length b.points.length ∧
    (∃ mi < min a.points.length b.points.length,
      (∀ k < min a.points.length b.points.length, c.min_h_nm ≤ hsep a b k) ∧
      c.min_h_nm = hsep a b mi ∧ c.min_v_ft = vsep a b mi ∧
      c.cpa_lat = ((trackPt a mi).lat + (trackPt b mi).lat) / 2 ∧
      c.cpa_lon = ((trackPt a mi).lon + (trackPt b mi).lon) / 2) ∧
    (∃ fb < min a.points.length b.points.length, breachAt a b H V fb ∧
      (∀ k < fb, ¬breachAt a b H V k) ∧
      c.first_breach_s = fb * min (stepSeconds a) (stepSeconds b)) := by
  unfold pairConflict at h
  by_cases hlt : min a.points.length b.points.length < 2
  · rw [if_pos hlt] at h
    cases h
  · rw [if_neg hlt] at h
    push_neg at hlt
    dsimp only at h
    cases hfb : (scanPair a b H V
        (min a.points.length b.points.length)).firstBreach with
    | none =>
      cases hb : (scanPair a b H V
          (min a.points.length b.points.length)).best with
      | none =>
        rw [hfb, hb] at h
        cases h
      | some t =>
        obtain ⟨mh, mv, mi⟩ := t
        rw [hfb, hb] at h
        cases h
    | some fb =>
      rcases scanPair_best_spec a b H V (min a.points.length b.points.length)
        (by omega) with ⟨mh, mv, mi, hbe, hmi, hh, hv, hmin⟩
      rw [hfb, hbe] at h
      dsimp only at h
      injection h with h
      subst h
      rcases scanPair_fb_some a b H V _ fb hfb with ⟨hfb1, hfb2, hfb3⟩
      refine ⟨rfl, rfl, hlt, ⟨mi, hmi, ?_, hh, hv, rfl, rfl⟩,
        ⟨fb, hfb1, hfb2, hfb3, rfl⟩⟩
      intro k hk
      exact hh ▸ hmin k hk

theorem jsMapDedup_eq_self {α κ : Type} [DecidableEq κ] (key : α → κ)
    (l : List α) (hnd : (l.map key).Nodup) : jsMapDedup key l = l := by
  suffices h : ∀ N (l2 : List α), l2.length ≤ N → (l2.map key).Nodup →
      jsMapDedup key l2 = l2 from h l.length l (le_refl _) hnd
  intro N
  induction N with
  | zero =>
    intro l2 hl _
    cases l2 with
    | nil => rw [jsMapDedup]
    | cons x xs => simp at hl
  | succ N ih =>
    intro l2 hl hnd2
    cases l2 with
    | nil => rw [jsMapDedup]
    | cons x xs =>
      rw [jsMapDedup]
      simp only [List.map_cons, List.nodup_cons] at hnd2
      have hxn : ∀ y ∈ xs, ¬key y = key x := by
        intro y hy he
        exact hnd2.1 (he ▸ List.mem_map.mpr ⟨y, hy, rfl⟩)
      have hfind : ((x :: xs).reverse.find?
          (fun y => decide (key y = key x))).getD x = x := by
        rw [List.reverse_cons, List.find?_append]
        have h1 : xs.reverse.find? (fun y => decide (key y = key x)) = none := by
          rw [List.find?_eq_none]
          intro y hy
          simp [hxn y (List.mem_reverse.mp hy)]
        rw [h1]
        simp
      have hfilter : xs.filter (fun y => !decide (key y = key x)) = xs := by
        rw [List.filter_eq_self]
        intro y hy
        simp [hxn y hy]
      rw [hfind, hfilter]
      congr 1
      apply ih
      · simp only [List.length_cons] at hl
        omega
      · exact hnd2.2

theorem nodup_map_get_inj {α β : Type} {f : α → β} {l : List α}
    (hn : (l.map f).Nodup) {i1 i2 : ℕ} (h1 : i1 < l.length)
    (h2 : i2 < l.length)
    (he : f (l.get ⟨i1, h1⟩) = f (l.get ⟨i2, h2⟩)) : i1 = i2 := by
  have hm1 : i1 < (List.map f l).length := by simpa using h1
  have hm2 : i2 < (List.map f l).length := by simpa using h2
  have hmeq : (List.map f l)[i1] = (List.map f l)[i2] := by
    rw [List.getElem_map, List.getElem_map]
    simpa [List.get_eq_getElem] using he
  exact hn.getElem_inj_iff.mp hmeq

theorem stepSeconds_of_nonpos {t : ProjectedTrack}
    (h : (t.points.getD 1 {lat := 0, lon := 0}).t_s.getD 0 -
         (t.points.getD 0 {lat := 0, lon := 0}).t_s.getD 0 ≤ 0) :
    stepSeconds t = 60 := by
  unfold stepSeconds
  dsimp only
  rw [if_neg (not_lt.mpr h)]

/-- C1: for each unordered pair of distinct tracks with sample overlap
`n = min(len_a, len_b)`, the detector emits exactly one conflict for that
pair iff `n ≥ 2` and some walked index breaches both thresholds
simultaneously; pairs with no simultaneous breach, and pairs with `n < 2`,
yield none. -/
theorem claim_C1_detect_iff (tracks : List ProjectedTrack) (H V : ℝ)
    (hn : (tracks.map (fun t => t.id)).Nodup) (i j : ℕ) (hij : i < j)
    (hj : j < tracks.length) (A B : ProjectedTrack)
    (hA : tracks.get ⟨i, Nat.lt_trans hij hj⟩ = A)
    (hB : tracks.get ⟨j, hj⟩ = B) :
    (detectSeparationConflicts tracks H V).countP (fun c =>
        decide (conflictKey c = pairKey A.id B.id)) =
      if 2 ≤ min A.points.length B.points.length ∧
          ∃ k < min A.points.length B.points.length,
            hsep A B k < H ∧ vsep A B k < V
        then 1 else 0 := by
  have hi : i < tracks.length := Nat.lt_trans hij hj
  rw [List.get_eq_getElem] at hA hB
  have hgdA : tracks.getD i ⟨"", []⟩ = A := by
    rw [List.getD_eq_getElem _ _ hi, hA]
  have hgdB : tracks.getD j ⟨"", []⟩ = B := by
    rw [List.getD_eq_getElem _ _ hj, hB]
  have hABid : A.id ≠ B.id := by
    intro he
    have := nodup_map_get_inj hn hi hj (by
      rw [List.get_eq_getElem, List.get_eq_getElem, hA, hB]
      exact he)
    omega
  unfold detectSeparationConflicts
  dsimp only
  rw [jsMapDedup_eq_self _ _ hn]
  rw [(List.mergeSort_perm _ _).countP_eq]
  have hother : ∀ x ∈ pairIndices tracks.length, x ≠ (i, j) → ∀ c,
      pairConflict (tracks.getD x.1 ⟨"", []⟩) (tracks.getD x.2 ⟨"", []⟩)
        H V = some c →
      (decide (conflictKey c = pairKey A.id B.id)) = false := by
    rintro ⟨i2, j2⟩ hmem hne c hpc
    rcases mem_pairIndices.mp hmem with ⟨hij2, hj2⟩
    have h2i : i2 < tracks.length := Nat.lt_trans hij2 hj2
    rcases pairConflict_some_spec hpc with ⟨ha2, hb2, -, -, -⟩
    rw [List.getD_eq_getElem _ _ h2i] at ha2
    rw [List.getD_eq_getElem _ _ hj2] at hb2
    have hA2B2 : tracks[i2].id ≠ tracks[j2].id := by
      intro he
      have := nodup_map_get_inj hn h2i hj2 (by
        rw [List.get_eq_getElem, List.get_eq_getElem]
        exact he)
      omega
    apply decide_eq_false
    intro hkey
    unfold conflictKey at hkey
    rw [ha2, hb2] at hkey
    rcases (pairKey_eq_iff hA2B2 hABid).mp hkey with ⟨he1, he2⟩ | ⟨he1, he2⟩
    · have hii : i2 = i := nodup_map_get_inj hn h2i hi (by
        rw [List.get_eq_getElem, List.get_eq_getElem, he1, hA])
      have hjj : j2 = j := nodup_map_get_inj hn hj2 hj (by
        rw [List.get_eq_getElem, List.get_eq_getElem, he2, hB])
      exact hne (by rw [hii, hjj])
    · have hii : i2 = j := nodup_map_get_inj hn h2i hj (by
        rw [List.get_eq_getElem, List.get_eq_getElem, he1, hB])
      have hjj : j2 = i := nodup_map_get_inj hn hj2 hi (by
        rw [List.get_eq_getElem, List.get_eq_getElem, he2, hA])
      omega
  rw [countP_filterMap_unique _ _ _ (i, j)
    (mem_pairIndices.mpr ⟨hij, hj⟩) (nodup_pairIndices _) hother]
  dsimp only
  rw [hgdA, hgdB]
  cases hp : pairConflict A B H V with
  | none =>
    have hns : ¬(2 ≤ min A.points.length B.points.length ∧
        ∃ k < min A.points.length B.points.length,
          hsep A B k < H ∧ vsep A B k < V) := by
      intro hcond
      have := (pairConflict_isSome_iff A B H V).mpr hcond
      rw [hp] at this
      cases this
    rw [if_neg hns]
  | some c =>
    have hcond : 2 ≤ min A.points.length B.points.length ∧
        ∃ k < min A.points.length B.points.length,
          hsep A B k < H ∧ vsep A B k < V := by
      have := (pairConflict_isSome_iff A B H V).mp (by rw [hp]; rfl)
      exact this
    rw [if_pos hcond]
    rcases pairConflict_some_spec hp with ⟨ha2, hb2, -, -, -⟩
    have hkey : conflictKey c = pairKey A.id B.id := by
      unfold conflictKey
      rw [ha2, hb2]
    simp [hkey]

/-- Witness for C1: the concrete in-breach pair yields exactly one
conflict. -/
theorem claim_C1_witness :
    (detectSeparationConflicts wtracks 5 1000).countP (fun c =>
      decide (conflictKey c = pairKey wtrackA.id wtrackB.id)) = 1 := by
  have h := claim_C1_detect_iff wtracks 5 1000 (by decide) 0 1 (by norm_num)
    (by decide) wtrackA wtrackB rfl rfl
  rw [h, if_pos]
  refine ⟨by decide, 0, by decide, ?_, ?_⟩
  · show haversineNm 45.5019 (-73.5674) 45.5019 (-73.5674) < 5
    rw [haversineNm_self]
    norm_num
  · show |(Option.getD none 0 : ℝ) - Option.getD none 0| < 1000
    norm_num

theorem hsep_wtracks_zero (k : ℕ) (hk : k < 2) :
    hsep wtrackA wtrackB k = 0 := by
  interval_cases k
  · show haversineNm 45.5019 (-73.5674) 45.5019 (-73.5674) = 0
    exact haversineNm_self _ _
  · show haversineNm 45.5019 (-73.5674) 45.5019 (-73.5674) = 0
    exact haversineNm_self _ _

theorem vsep_wtracks_zero (k : ℕ) : vsep wtrackA wtrackB k = 0 := by
  unfold vsep
  cases k with
  | zero =>
    show |(Option.getD none 0 : ℝ) - Option.getD none 0| = 0
    norm_num
  | succ m =>
    cases m with
    | zero =>
      show |(Option.getD none 0 : ℝ) - Option.getD none 0| = 0
      norm_num
    | succ p =>
      show |(Option.getD none 0 : ℝ) - Option.getD none 0| = 0
      norm_num

theorem stepSeconds_wtrack : stepSeconds wtrackA = 60 ∧ stepSeconds wtrackB = 60 := by
  constructor
  · apply stepSeconds_of_nonpos
    show (Option.getD none 0 : ℝ) - Option.getD none 0 ≤ 0
    norm_num
  · apply stepSeconds_of_nonpos
    show (Option.getD none 0 : ℝ) - Option.getD none 0 ≤ 0
    norm_num

theorem pairConflict_wtracks : pairConflict wtrackA wtrackB 5 1000 = some cw := by
  have h0 := hsep_wtracks_zero 0 (by norm_num)
  have h1 := hsep_wtracks_zero 1 (by norm_num)
  have hv0 := vsep_wtracks_zero 0
  have hs1 : scanPair wtrackA wtrackB 5 1000 1 =
      ⟨some (hsep wtrackA wtrackB 0, vsep wtrackA wtrackB 0, 0), some 0⟩ := by
    rw [show (1 : ℕ) = 0 + 1 from rfl, scanPair_succ, scanPair_zero]
    unfold scanStep
    dsimp only
    rw [if_pos ⟨by rw [h0]; norm_num, by rw [hv0]; norm_num⟩]
  have hs2 : scanPair wtrackA wtrackB 5 1000 2 =
      ⟨some (hsep wtrackA wtrackB 0, vsep wtrackA wtrackB 0, 0), some 0⟩ := by
    rw [show (2 : ℕ) = 1 + 1 from rfl, scanPair_succ, hs1]
    unfold scanStep
    dsimp only
    rw [if_neg (by rw [h1, h0]; norm_num)]
  unfold pairConflict
  dsimp only
  rw [if_neg (by decide : ¬min wtrackA.points.length wtrackB.points.length < 2)]
  have hmin2 : min wtrackA.points.length wtrackB.points.length = 2 := rfl
  rw [hmin2, hs2]
  dsimp only
  rw [Option.some.injEq, Conflict.mk.injEq]
  refine ⟨rfl, rfl, ?_, ?_, ?_, ?_, ?_⟩
  · show (45.5019 + 45.5019) / 2 = cw.cpa_lat
    norm_num [cw]
  · show (-73.5674 + -73.5674) / 2 = cw.cpa_lon
    norm_num [cw]
  · rw [stepSeconds_wtrack.1, stepSeconds_wtrack.2]
    norm_num [cw]
  · rw [h0]
    norm_num [cw]
  · rw [hv0]
    norm_num [cw]

theorem detect_wtracks : detectSeparationConflicts wtracks 5 1000 = [cw] := by
  unfold detectSeparationConflicts
  dsimp only
  rw [jsMapDedup_eq_self _ _ (by decide)]
  have hpi : pairIndices wtracks.length = [(0, 1)] := by decide
  rw [hpi, List.filterMap_cons]
  have hgd : pairConflict (wtracks.getD 0 ⟨"", []⟩) (wtracks.getD 1 ⟨"", []⟩)
      5 1000 = some cw := pairConflict_wtracks
  rw [hgd, List.filterMap_nil]
  exact List.mergeSort_of_sorted (by simp)

/-- C2: every emitted conflict carries the pair's ids, the global minimum
horizontal separation over all walked indices, the vertical separation at
that same minimizing index, the arithmetic midpoint CPA at that index, and
`first_breach_s` = first-breach index × the pair's step (the smaller of
the two tracks' inferred steps, defaulting to 60 s on an unavailable or
non-positive offset). -/
theorem claim_C2_detect_fields (tracks : List ProjectedTrack) (H V : ℝ)
    (hn : (tracks.map (fun t => t.id)).Nodup) (c : Conflict)
    (hc : c ∈ detectSeparationConflicts tracks H V) :
    (∃ a ∈ tracks, ∃ b ∈ tracks, a.id ≠ b.id ∧ c.a_id = a.id ∧ c.b_id = b.id ∧
      2 ≤ min a.points.length b.points.length ∧
      (∃ mi < min a.points.length b.points.length,
        (∀ k < min a.points.length b.points.length, c.min_h_nm ≤ hsep a b k) ∧
        c.min_h_nm = hsep a b mi ∧ c.min_v_ft = vsep a b mi ∧
        c.cpa_lat = ((trackPt a mi).lat + (trackPt b mi).lat) / 2 ∧
        c.cpa_lon = ((trackPt a mi).lon + (trackPt b mi).lon) / 2) ∧
      (∃ fb < min a.points.length b.points.length,
        (hsep a b fb < H ∧ vsep a b fb < V) ∧
        (∀ k < fb, ¬(hsep a b k < H ∧ vsep a b k < V)) ∧
        c.first_breach_s = fb * min (stepSeconds a) (stepSeconds b))) ∧
    (∀ t : ProjectedTrack,
      (t.points.getD 1 {lat := 0, lon := 0}).t_s.getD 0 -
        (t.points.getD 0 {lat := 0, lon := 0}).t_s.getD 0 ≤ 0 →
      stepSeconds t = 60) := by
  refine ⟨?_, fun t ht => stepSeconds_of_nonpos ht⟩
  unfold detectSeparationConflicts at hc
  dsimp only at hc
  rw [jsMapDedup_eq_self _ _ hn] at hc
  rw [List.mem_mergeSort] at hc
  rcases List.mem_filterMap.mp hc with ⟨⟨i2, j2⟩, hmem, hpc⟩
  rcases mem_pairIndices.mp hmem with ⟨hij2, hj2⟩
  have h2i : i2 < tracks.length := Nat.lt_trans hij2 hj2
  rw [List.getD_eq_getElem _ _ h2i, List.getD_eq_getElem _ _ hj2] at hpc
  have hne : tracks[i2].id ≠ tracks[j2].id := by
    intro he
    have := nodup_map_get_inj hn h2i hj2 (by
      rw [List.get_eq_getElem, List.get_eq_getElem]
      exact he)
    omega
  rcases pairConflict_some_spec hpc with ⟨ha2, hb2, hlen, hmi, hfb⟩
  exact ⟨tracks[i2], List.getElem_mem h2i, tracks[j2], List.getElem_mem hj2,
    hne, ha2, hb2, hlen, hmi, hfb⟩

/-- Witness for C2, on the concrete in-breach pair. -/
theorem claim_C2_witness :
    ∃ a ∈ wtracks, ∃ b ∈ wtracks, a.id ≠ b.id ∧ cw.a_id = a.id ∧
      cw.b_id = b.id := by
  have h := claim_C2_detect_fields wtracks 5 1000 (by decide) cw
    (by rw [detect_wtracks]; exact List.mem_singleton_self cw)
  rcases h.1 with ⟨a, ha, b, hb, h1, h2, h3, -⟩
  exact ⟨a, ha, b, hb, h1, h2, h3⟩

theorem mem_buildWeatherAlerts_kind {sampler : ℝ → ℝ → ℝ → Option ℝ}
    {ac : List AircraftState} {timeMs : ℝ} {tISO : Option ℝ} {al : Alert}
    (h : al ∈ buildWeatherAlerts sampler ac timeMs tISO) :
    al.kind = AlertKind.weather := by
  unfold buildWeatherAlerts at h
  cases tISO with
  | none => cases h
  | some t =>
    rcases List.mem_filterMap.mp h with ⟨a, -, hf⟩
    cases hs : sampler a.lat a.lon t with
    | none =>
      rw [hs] at hf
      cases hf
    | some v =>
      rw [hs] at hf
      dsimp only at hf
      by_cases hv : v ≤ 0
      · rw [if_pos hv] at hf
        cases hf
      · rw [if_neg hv] at hf
        injection hf with hf
        subst hf
        rfl

theorem mem_wakeAlertsOf_kind {ac : List AircraftState} {t : ℤ} {al : Alert}
    (h : al ∈ wakeAlertsOf ac t) : al.kind = AlertKind.wake := by
  rcases List.mem_filterMap.mp h with ⟨ij, -, hf⟩
  exact (wakeAlertFor_some_fields hf).1

theorem detect_nil (H V : ℝ) : detectSeparationConflicts [] H V = [] := by
  unfold detectSeparationConflicts
  dsimp only
  rw [jsMapDedup]
  rw [show pairIndices ([] : List ProjectedTrack).length = [] from rfl,
    List.filterMap_nil, List.mergeSort_nil]

/-- C8: when the trajectory projector fails, the tick still completes: the
exposed track set is empty regardless of the previous state, no separation
alerts are produced, and the tick's output is exactly that of a tick with
an empty projected-track set (the other alert families still run). -/
theorem claim_C8_projectorFailure (st : EngineState) (ac : List AircraftState)
    (timeMs nowMs : ℝ) (sampler : ℝ → ℝ → ℝ → Option ℝ) :
    (recomputeTick st ac timeMs nowMs none sampler).tracks = [] ∧
    (∀ al ∈ (recomputeTick st ac timeMs nowMs none sampler).alerts,
      al.kind ≠ AlertKind.separation) ∧
    (recomputeTick st ac timeMs nowMs none sampler).alerts =
      buildWeatherAlerts sampler ac timeMs st.weatherTimeISO ++
        buildLocalAlerts ac timeMs ∧
    recomputeTick st ac timeMs nowMs none sampler =
      recomputeTick st ac timeMs nowMs (some []) sampler := by
  have halerts : (recomputeTick st ac timeMs nowMs none sampler).alerts =
      buildWeatherAlerts sampler ac timeMs st.weatherTimeISO ++
        buildLocalAlerts ac timeMs := by
    show (detectSeparationConflicts [] 5 1000).map _ ++ _ ++ _ = _
    rw [detect_nil]
    rfl
  refine ⟨rfl, ?_, halerts, rfl⟩
  intro al hal
  rw [halerts] at hal
  rcases List.mem_append.mp hal with hw | hl
  · rw [mem_buildWeatherAlerts_kind hw]
    intro h
    cases h
  · rcases List.mem_append.mp hl with hvc | hwk
    · rcases List.mem_append.mp hvc with hv | hcg
      · rw [mem_verticalAlertsOf_kind hv]
        intro h
        cases h
      · rw [mem_congestionAlertsOf_kind hcg]
        intro h
        cases h
    · rw [mem_wakeAlertsOf_kind hwk]
      intro h
      cases h

/-- Witness for C8 at a concrete empty tick. -/
theorem claim_C8_witness :
    (recomputeTick emptyState [] 0 0 none nullSampler).tracks = [] :=
  (claim_C8_projectorFailure emptyState [] 0 0 nullSampler).1

theorem mem_verticalAlertsOf_involved {ac : List AircraftState} {t : ℤ}
    {al : Alert} (h : al ∈ verticalAlertsOf ac t) :
    al.involvedAircraftIds.length = 1 := by
  rcases List.mem_filterMap.mp h with ⟨a, -, hf⟩
  dsimp only at hf
  by_cases h1 : |(a.vr_fpm.getD 0 : ℝ)| < 1500
  · rw [if_pos h1] at hf
    cases hf
  · rw [if_neg h1] at hf
    injection hf with hf
    subst hf
    rfl

theorem mem_wakeAlertsOf_involved {ac : List AircraftState} {t : ℤ}
    {al : Alert} (h : al ∈ wakeAlertsOf ac t) :
    al.involvedAircraftIds.length = 2 := by
  rcases List.mem_filterMap.mp h with ⟨ij, -, hf⟩
  rw [(wakeAlertFor_some_fields hf).2.1]
  rfl

theorem mem_buildWeatherAlerts_involved {sampler : ℝ → ℝ → ℝ → Option ℝ}
    {ac : List AircraftState} {timeMs : ℝ} {tISO : Option ℝ} {al : Alert}
    (h : al ∈ buildWeatherAlerts sampler ac timeMs tISO) :
    al.involvedAircraftIds.length = 1 := by
  unfold buildWeatherAlerts at h
  cases tISO with
  | none => cases h
  | some t =>
    rcases List.mem_filterMap.mp h with ⟨a, -, hf⟩
    cases hs : sampler a.lat a.lon t with
    | none =>
      rw [hs] at hf
      cases hf
    | some v =>
      rw [hs] at hf
      dsimp only at hf
      by_cases hv : v ≤ 0
      · rw [if_pos hv] at hf
        cases hf
      · rw [if_neg hv] at hf
        injection hf with hf
        subst hf
        rfl

theorem mem_sepAlerts_involved {cs : List Conflict} {t : ℤ} {al : Alert}
    (h : al ∈ cs.map (mkSepAlert t)) :
    al.involvedAircraftIds.length = 2 := by
  rcases List.mem_map.mp h with ⟨c, -, rfl⟩
  rfl

theorem mem_congestionAlertsOf_involved {ac : List AircraftState} {t : ℤ}
    {al : Alert} (h : al ∈ congestionAlertsOf ac t) :
    10 ≤ al.involvedAircraftIds.length := by
  unfold congestionAlertsOf at h
  by_cases h1 : 10 ≤ (withinCenter ac).length
  · rw [if_pos h1] at h
    rcases List.mem_singleton.mp h with rfl
    simpa using h1
  · rw [if_neg h1] at h
    cases h

/-- C9 (amended): every alert of the separation, weather, vertical and
wake families carries 1–2 involved aircraft ids; congestion alerts instead
carry one id per aircraft within 20 NM of the reference point, hence at
least 10 when emitted. -/
theorem claim_C9_involvedBounds (st : EngineState) (ac : List AircraftState)
    (timeMs nowMs : ℝ) (proj : Option (List ProjectedTrack))
    (sampler : ℝ → ℝ → ℝ → Option ℝ) :
    (∀ al ∈ (recomputeTick st ac timeMs nowMs proj sampler).alerts,
      al.kind ≠ AlertKind.congestion →
      1 ≤ al.involvedAircraftIds.length ∧ al.involvedAircraftIds.length ≤ 2) ∧
    (∀ al ∈ (recomputeTick st ac timeMs nowMs proj sampler).alerts,
      al.kind = AlertKind.congestion → 10 ≤ al.involvedAircraftIds.length) := by
  constructor
  · intro al hal hnc
    rcases List.mem_append.mp hal with hsw | hl
    · rcases List.mem_append.mp hsw with hs | hw
      · rw [mem_sepAlerts_involved hs]
        omega
      · rw [mem_buildWeatherAlerts_involved hw]
        omega
    · rcases List.mem_append.mp hl with hvc | hwk
      · rcases List.mem_append.mp hvc with hv | hcg
        · rw [mem_verticalAlertsOf_involved hv]
          omega
        · exact absurd (mem_congestionAlertsOf_kind hcg) hnc
      · rw [mem_wakeAlertsOf_involved hwk]
        omega
  · intro al hal hk
    rcases List.mem_append.mp hal with hsw | hl
    · rcases List.mem_append.mp hsw with hs | hw
      · rcases List.mem_map.mp hs with ⟨c, -, rfl⟩
        cases hk
      · rw [mem_buildWeatherAlerts_kind hw] at hk
        cases hk
    · rcases List.mem_append.mp hl with hvc | hwk
      · rcases List.mem_append.mp hvc with hv | hcg
        · rw [mem_verticalAlertsOf_kind hv] at hk
          cases hk
        · exact mem_congestionAlertsOf_involved hcg
      · rw [mem_wakeAlertsOf_kind hwk] at hk
        cases hk

theorem withinCenter_congested :
    withinCenter congestedSnapshot = congestedSnapshot := by
  unfold withinCenter
  rw [List.filter_eq_self]
  intro a ha
  rcases List.mem_map.mp ha with ⟨k, -, rfl⟩
  simp only [ctrAircraft, DEFAULT_CENTER, decide_eq_true_eq]
  rw [haversineNm_self]
  norm_num

/-- C9 counterexample: a tick over ten co-located aircraft emits an alert
carrying ten involved aircraft ids, refuting the 1–2 bound. -/
theorem claim_C9_counterexample :
    ∃ al ∈ (recomputeTick emptyState congestedSnapshot 0 0 none
        nullSampler).alerts,
      2 < al.involvedAircraftIds.length := by
  have hlen : (withinCenter congestedSnapshot).length = 10 := by
    rw [withinCenter_congested]
    simp [congestedSnapshot]
  have hc : ∃ al ∈ congestionAlertsOf congestedSnapshot ⌊(0 : ℝ) / 1000⌋,
      al.involvedAircraftIds.length = 10 := by
    unfold congestionAlertsOf
    rw [if_pos (by omega)]
    refine ⟨_, List.mem_singleton_self _, ?_⟩
    simpa using hlen
  obtain ⟨al, halc, hlen10⟩ := hc
  refine ⟨al, ?_, by omega⟩
  show al ∈ _ ++ _ ++ buildLocalAlerts congestedSnapshot 0
  apply List.mem_append_right
  show al ∈ verticalAlertsOf _ _ ++ congestionAlertsOf _ _ ++ wakeAlertsOf _ _
  apply List.mem_append_left
  exact List.mem_append_right _ halc

/-- Witness for C9 (amended), at the same congested tick: the congestion
alert carries at least 10 ids. -/
theorem claim_C9_witness :
    ∀ al ∈ (recomputeTick emptyState congestedSnapshot 0 0 none
        nullSampler).alerts,
      al.kind = AlertKind.congestion → 10 ≤ al.involvedAircraftIds.length :=
  (claim_C9_involvedBounds emptyState congestedSnapshot 0 0 none
    nullSampler).2

/-- C5 (amended): the weather family samples only aircraft within 120 NM
of the reference point, at most 30 of them, taken in snapshot order (the
first 30 candidates, not the nearest). -/
theorem claim_C5_weatherCandidates (sampler : ℝ → ℝ → ℝ → Option ℝ)
    (ac : List AircraftState) (timeMs : ℝ) (tISO : ℝ) :
    (∀ a ∈ weatherCandidates ac,
      haversineNm DEFAULT_CENTER.1 DEFAULT_CENTER.2 a.lat a.lon ≤ 120) ∧
    (weatherCandidates ac).length ≤ 30 ∧
    List.Sublist (weatherCandidates ac) ac ∧
    (∀ al ∈ buildWeatherAlerts sampler ac timeMs (some tISO),
      ∃ a ∈ weatherCandidates ac, al.involvedAircraftIds = [a.id]) := by
  refine ⟨?_, ?_, ?_, ?_⟩
  · intro a ha
    have hf : a ∈ ac.filter (fun a =>
        decide (haversineNm DEFAULT_CENTER.1 DEFAULT_CENTER.2 a.lat a.lon ≤ 120)) :=
      List.take_subset _ _ ha
    simpa using List.of_mem_filter hf
  · rw [weatherCandidates, List.length_take]
    exact min_le_left _ _
  · exact (List.take_sublist _ _).trans (List.filter_sublist _)
  · intro al hal
    unfold buildWeatherAlerts at hal
    rcases List.mem_filterMap.mp hal with ⟨a, ha, hf⟩
    refine ⟨a, ha, ?_⟩
    cases hs : sampler a.lat a.lon tISO with
    | none =>
      rw [hs] at hf
      cases hf
    | some v =>
      rw [hs] at hf
      dsimp only at hf
      by_cases hv : v ≤ 0
      · rw [if_pos hv] at hf
        cases hf
      · rw [if_neg hv] at hf
        injection hf with hf
        subst hf
        rfl

theorem arctan_le_self {t : ℝ} (h : 0 ≤ t) : Real.arctan t ≤ t := by
  rcases eq_or_lt_of_le h with rfl | ht
  · rw [Real.arctan_zero]
  · have h1 : 0 < Real.arctan t := by
      rw [← Real.arctan_zero]
      exact Real.arctan_strictMono ht
    have h2 := Real.arctan_lt_pi_div_two t
    have h3 := Real.lt_tan h1 h2
    rw [Real.tan_arctan] at h3
    exact h3.le

theorem farDistance_bounds :
    0 < haversineNm 45.5019 (-73.5674) 46.0019 (-73.5674) ∧
    haversineNm 45.5019 (-73.5674) 46.0019 (-73.5674) ≤ 120 := by
  have hpi_pos := Real.pi_pos
  have hpi_lt : Real.pi < 3.15 := Real.pi_lt_315
  simp only [haversineNm]
  have hlat2 : toRad (46.0019 - 45.5019) / 2 = Real.pi / 720 := by
    unfold toRad
    ring
  have hlon : toRad (-73.5674 - -73.5674) / 2 = 0 := by
    unfold toRad
    ring
  have haeq : Real.sin (toRad (46.0019 - 45.5019) / 2) ^ 2 +
      Real.cos (toRad 45.5019) * Real.cos (toRad 46.0019) *
        Real.sin (toRad (-73.5674 - -73.5674) / 2) ^ 2 =
      Real.sin (Real.pi / 720) ^ 2 := by
    rw [hlat2, hlon, Real.sin_zero]
    ring
  rw [haeq]
  have hx_pos : 0 < Real.pi / 720 := by linarith
  have hx_lt : Real.pi / 720 < 0.004375 := by linarith
  have hs_pos : 0 < Real.sin (Real.pi / 720) :=
    Real.sin_pos_of_pos_of_lt_pi hx_pos (by linarith)
  have hs_lt : Real.sin (Real.pi / 720) < 0.004375 :=
    lt_trans (Real.sin_lt hx_pos) hx_lt
  have ha_lt : Real.sin (Real.pi / 720) ^ 2 < 0.0002 := by nlinarith
  have ha_pos : 0 < Real.sin (Real.pi / 720) ^ 2 := by positivity
  have hsq : Real.sqrt (Real.sin (Real.pi / 720) ^ 2) = Real.sin (Real.pi / 720) :=
    Real.sqrt_sq hs_pos.le
  have hd_ge : (0.9 : ℝ) ≤ Real.sqrt (1 - Real.sin (Real.pi / 720) ^ 2) :=
    (Real.le_sqrt' (by norm_num)).mpr (by nlinarith)
  have hd_pos : 0 < Real.sqrt (1 - Real.sin (Real.pi / 720) ^ 2) := by linarith
  rw [hsq]
  unfold atan2
  rw [if_pos hd_pos]
  have ht_pos : 0 < Real.sin (Real.pi / 720) /
      Real.sqrt (1 - Real.sin (Real.pi / 720) ^ 2) := div_pos hs_pos hd_pos
  have ht_le : Real.sin (Real.pi / 720) /
      Real.sqrt (1 - Real.sin (Real.pi / 720) ^ 2) ≤ 0.0049 := by
    have h1 : Real.sin (Real.pi / 720) /
        Real.sqrt (1 - Real.sin (Real.pi / 720) ^ 2) ≤
        Real.sin (Real.pi / 720) / 0.9 :=
      div_le_div_of_nonneg_left hs_pos.le (by norm_num) hd_ge
    have h2 : Real.sin (Real.pi / 720) / 0.9 ≤ 0.004375 / 0.9 :=
      (div_le_div_right (by norm_num)).mpr hs_lt.le
    have h3 : (0.004375 : ℝ) / 0.9 ≤ 0.0049 := by norm_num
    linarith
  have harc_pos : 0 < Real.arctan (Real.sin (Real.pi / 720) /
      Real.sqrt (1 - Real.sin (Real.pi / 720) ^ 2)) := by
    rw [← Real.arctan_zero]
    exact Real.arctan_strictMono ht_pos
  have harc_le : Real.arctan (Real.sin (Real.pi / 720) /
      Real.sqrt (1 - Real.sin (Real.pi / 720) ^ 2)) ≤ 0.0049 :=
    le_trans (arctan_le_self ht_pos.le) ht_le
  constructor
  · apply div_pos _ (by norm_num)
    nlinarith
  · rw [div_le_iff (by norm_num)]
    nlinarith

/-- C5 counterexample: in a 31-aircraft snapshot whose last aircraft sits
exactly at the reference point, the strictly nearest in-range aircraft is
not sampled while 30 strictly farther ones are — the cap takes the first
30 candidates in snapshot order, not the 30 nearest. -/
theorem weatherCandidates_wxSnapshot :
    weatherCandidates wxSnapshot = List.replicate 30 wxFar := by
  have hnear : haversineNm DEFAULT_CENTER.1 DEFAULT_CENTER.2 wxNear.lat
      wxNear.lon = 0 := haversineNm_self 45.5019 (-73.5674)
  have hfar := farDistance_bounds
  have hfilter : wxSnapshot.filter (fun a =>
      decide (haversineNm DEFAULT_CENTER.1 DEFAULT_CENTER.2 a.lat a.lon ≤ 120)) =
      wxSnapshot := by
    rw [List.filter_eq_self]
    intro a ha
    rcases List.mem_append.mp ha with hrep | hlast
    · rcases List.eq_of_mem_replicate hrep with rfl
      simp only [decide_eq_true_eq]
      exact hfar.2
    · rcases List.mem_singleton.mp hlast with rfl
      simp only [decide_eq_true_eq]
      rw [hnear]
      norm_num
  unfold weatherCandidates
  rw [hfilter]
  show List.take 30 (List.replicate 30 wxFar ++ [wxNear]) =
    List.replicate 30 wxFar
  exact List.take_left' (by simp)

theorem claim_C5_counterexample :
    haversineNm DEFAULT_CENTER.1 DEFAULT_CENTER.2 wxNear.lat wxNear.lon ≤ 120 ∧
    wxNear ∉ weatherCandidates wxSnapshot ∧
    ∃ s ∈ weatherCandidates wxSnapshot,
      haversineNm DEFAULT_CENTER.1 DEFAULT_CENTER.2 wxNear.lat wxNear.lon <
        haversineNm DEFAULT_CENTER.1 DEFAULT_CENTER.2 s.lat s.lon := by
  have hnear : haversineNm DEFAULT_CENTER.1 DEFAULT_CENTER.2 wxNear.lat
      wxNear.lon = 0 := haversineNm_self 45.5019 (-73.5674)
  have hfar := farDistance_bounds
  have hcand := weatherCandidates_wxSnapshot
  refine ⟨by rw [hnear]; norm_num, ?_, ?_⟩
  · rw [hcand]
    intro hmem
    have hid := congrArg AircraftState.id (List.eq_of_mem_replicate hmem)
    exact absurd hid (by decide)
  · refine ⟨wxFar, ?_, ?_⟩
    · rw [hcand]
      exact List.mem_replicate.mpr ⟨by norm_num, rfl⟩
    · rw [hnear]
      exact hfar.1

/-- Witness for C5 (amended): a concrete sampled aircraft is within
120 NM. -/
theorem claim_C5_witness :
    haversineNm DEFAULT_CENTER.1 DEFAULT_CENTER.2 wxFar.lat wxFar.lon ≤ 120 :=
  (claim_C5_weatherCandidates nullSampler wxSnapshot 0 0).1 wxFar
    (by rw [weatherCandidates_wxSnapshot]
        exact List.mem_replicate.mpr ⟨by norm_num, rfl⟩)

theorem detect_sorted (tracks : List ProjectedTrack) (H V : ℝ) :
    (detectSeparationConflicts tracks H V).Pairwise
      (fun x y => x.first_breach_s ≤ y.first_breach_s) := by
  unfold detectSeparationConflicts
  dsimp only
  have h := @List.sorted_mergeSort Conflict
    (fun x y : Conflict => decide (x.first_breach_s ≤ y.first_breach_s))
    (fun a b c hab hbc => by
      simp only [decide_eq_true_eq] at hab hbc ⊢
      exact le_trans hab hbc)
    (fun a b => by
      simp only [Bool.or_eq_true, decide_eq_true_eq]
      exact le_total _ _)
    ((pairIndices (jsMapDedup (fun t => t.id) tracks).length).filterMap
      (fun ij => pairConflict
        ((jsMapDedup (fun t => t.id) tracks).getD ij.1 ⟨"", []⟩)
        ((jsMapDedup (fun t => t.id) tracks).getD ij.2 ⟨"", []⟩) H V))
  exact h.imp (fun hab => by simpa using hab)

theorem nodup_filterMap_map {ι β κ : Type} (l : List ι) (f : ι → Option β)
    (key : β → κ) (hnd : l.Nodup)
    (hinj : ∀ x ∈ l, ∀ y ∈ l, ∀ cx cy, f x = some cx → f y = some cy →
      key cx = key cy → x = y) :
    ((l.filterMap f).map key).Nodup := by
  induction l with
  | nil => simp
  | cons x xs ih =>
    rcases List.nodup_cons.mp hnd with ⟨hxn, hnd2⟩
    rw [List.filterMap_cons]
    cases hfx : f x with
    | none =>
      exact ih hnd2 (fun a ha b hb => hinj a (List.mem_cons_of_mem _ ha) b
        (List.mem_cons_of_mem _ hb))
    | some cx =>
      rw [List.map_cons, List.nodup_cons]
      constructor
      · intro hmem
        rcases List.mem_map.mp hmem with ⟨cy, hcy, heq⟩
        rcases List.mem_filterMap.mp hcy with ⟨y, hy, hfy⟩
        have hxy : x = y := hinj x (List.mem_cons_self _ _) y
          (List.mem_cons_of_mem _ hy) cx cy hfx hfy heq.symm
        exact hxn (hxy ▸ hy)
      · exact ih hnd2 (fun a ha b hb => hinj a (List.mem_cons_of_mem _ ha) b
          (List.mem_cons_of_mem _ hb))

theorem detect_keys_nodup (tracks : List ProjectedTrack) (H V : ℝ)
    (hn : (tracks.map (fun t => t.id)).Nodup) :
    ((detectSeparationConflicts tracks H V).map conflictKey).Nodup := by
  unfold detectSeparationConflicts
  dsimp only
  rw [jsMapDedup_eq_self _ _ hn]
  have hperm := (List.mergeSort_perm
    ((pairIndices tracks.length).filterMap (fun ij =>
      pairConflict (tracks.getD ij.1 ⟨"", []⟩) (tracks.getD ij.2 ⟨"", []⟩) H V))
    (fun x y => decide (x.first_breach_s ≤ y.first_breach_s))).map conflictKey
  rw [hperm.nodup_iff]
  apply nodup_filterMap_map _ _ _ (nodup_pairIndices _)
  rintro ⟨i1, j1⟩ hm1 ⟨i2, j2⟩ hm2 cx cy hfx hfy hkey
  rcases mem_pairIndices.mp hm1 with ⟨hij1, hj1⟩
  rcases mem_pairIndices.mp hm2 with ⟨hij2, hj2⟩
  have hi1 : i1 < tracks.length := Nat.lt_trans hij1 hj1
  have hi2 : i2 < tracks.length := Nat.lt_trans hij2 hj2
  rw [List.getD_eq_getElem _ _ hi1, List.getD_eq_getElem _ _ hj1] at hfx
  rw [List.getD_eq_getElem _ _ hi2, List.getD_eq_getElem _ _ hj2] at hfy
  rcases pairConflict_some_spec hfx with ⟨hax, hbx, -, -, -⟩
  rcases pairConflict_some_spec hfy with ⟨hay, hby, -, -, -⟩
  have hne1 : tracks[i1].id ≠ tracks[j1].id := by
    intro he
    have := nodup_map_get_inj hn hi1 hj1 (by
      rw [List.get_eq_getElem, List.get_eq_getElem]
      exact he)
    omega
  have hne2 : tracks[i2].id ≠ tracks[j2].id := by
    intro he
    have := nodup_map_get_inj hn hi2 hj2 (by
      rw [List.get_eq_getElem, List.get_eq_getElem]
      exact he)
    omega
  unfold conflictKey at hkey
  rw [hax, hbx, hay, hby] at hkey
  rcases (pairKey_eq_iff hne1 hne2).mp hkey with ⟨he1, he2⟩ | ⟨he1, he2⟩
  · have hii : i1 = i2 := nodup_map_get_inj hn hi1 hi2 (by
      rw [List.get_eq_getElem, List.get_eq_getElem]
      exact he1)
    have hjj : j1 = j2 := nodup_map_get_inj hn hj1 hj2 (by
      rw [List.get_eq_getElem, List.get_eq_getElem]
      exact he2)
    rw [hii, hjj]
  · have hii : i1 = j2 := nodup_map_get_inj hn hi1 hj2 (by
      rw [List.get_eq_getElem, List.get_eq_getElem]
      exact he1)
    have hjj : j1 = i2 := nodup_map_get_inj hn hj1 hi2 (by
      rw [List.get_eq_getElem, List.get_eq_getElem]
      exact he2)
    omega

theorem mem_buildWeatherAlerts_data {sampler : ℝ → ℝ → ℝ → Option ℝ}
    {ac : List AircraftState} {timeMs : ℝ} {tISO : Option ℝ} {al : Alert}
    (h : al ∈ buildWeatherAlerts sampler ac timeMs tISO) : al.data = none := by
  unfold buildWeatherAlerts at h
  cases tISO with
  | none => cases h
  | some t =>
    rcases List.mem_filterMap.mp h with ⟨a, -, hf⟩
    cases hs : sampler a.lat a.lon t with
    | none =>
      rw [hs] at hf
      cases hf
    | some v =>
      rw [hs] at hf
      dsimp only at hf
      by_cases hv : v ≤ 0
      · rw [if_pos hv] at hf
        cases hf
      · rw [if_neg hv] at hf
        injection hf with hf
        subst hf
        rfl

theorem mem_verticalAlertsOf_data {ac : List AircraftState} {t : ℤ}
    {al : Alert} (h : al ∈ verticalAlertsOf ac t) : al.data = none := by
  rcases List.mem_filterMap.mp h with ⟨a, -, hf⟩
  dsimp only at hf
  by_cases h1 : |(a.vr_fpm.getD 0 : ℝ)| < 1500
  · rw [if_pos h1] at hf
    cases hf
  · rw [if_neg h1] at hf
    injection hf with hf
    subst hf
    rfl

theorem mem_congestionAlertsOf_data {ac : List AircraftState} {t : ℤ}
    {al : Alert} (h : al ∈ congestionAlertsOf ac t) : al.data = none := by
  unfold congestionAlertsOf at h
  by_cases h1 : 10 ≤ (withinCenter ac).length
  · rw [if_pos h1] at h
    rcases List.mem_singleton.mp h with rfl
    rfl
  · rw [if_neg h1] at h
    cases h

theorem mem_wakeAlertsOf_data {ac : List AircraftState} {t : ℤ} {al : Alert}
    (h : al ∈ wakeAlertsOf ac t) : al.data = none := by
  rcases List.mem_filterMap.mp h with ⟨ij, -, hf⟩
  unfold wakeAlertFor at hf
  dsimp only at hf
  by_cases h1 : 2 < haversineNm (ac.getD ij.1
      { id := "", lat := 0, lon := 0, alt_ft := 0 }).lat
      (ac.getD ij.1 { id := "", lat := 0, lon := 0, alt_ft := 0 }).lon
      (ac.getD ij.2 { id := "", lat := 0, lon := 0, alt_ft := 0 }).lat
      (ac.getD ij.2 { id := "", lat := 0, lon := 0, alt_ft := 0 }).lon ∨
      700 < |(ac.getD ij.1 { id := "", lat := 0, lon := 0, alt_ft := 0 }).alt_ft -
        (ac.getD ij.2 { id := "", lat := 0, lon := 0, alt_ft := 0 }).alt_ft|
  · rw [if_pos h1] at hf
    cases hf
  · rw [if_neg h1] at hf
    by_cases h2 : 25 < |normDeg ((ac.getD ij.1
        { id := "", lat := 0, lon := 0, alt_ft := 0 }).track_deg.getD 0 -
        (ac.getD ij.2 { id := "", lat := 0, lon := 0, alt_ft := 0 }).track_deg.getD 0)|
    · rw [if_pos h2] at hf
      cases hf
    · rw [if_neg h2] at hf
      injection hf with hf
      subst hf
      rfl

theorem visibleConflictsOf_eq_filter (cs : List Conflict) (ws ls : List Alert)
    (t : ℤ) (enabled : AlertKind → Bool) (minSev : AlertSeverity)
    (hws : ∀ al ∈ ws, al.kind ≠ AlertKind.separation)
    (hls : ∀ al ∈ ls, al.kind ≠ AlertKind.separation)
    (hkeys : (cs.map conflictKey).Nodup) :
    visibleConflictsOf (cs.map (mkSepAlert t) ++ ws ++ ls) enabled minSev =
      cs.filter (fun c => enabled AlertKind.separation &&
        decide (severityRank minSev ≤
          severityRank (mkSepAlert t c).severity)) := by
  unfold visibleConflictsOf filterAlerts
  dsimp only
  rw [List.filter_append, List.filter_append, List.filterMap_append,
    List.filterMap_append]
  have hws0 : (ws.filter (fun a => enabled a.kind &&
      decide (severityRank minSev ≤ severityRank a.severity))).filterMap
      (fun a => if a.kind = AlertKind.separation then a.data else none) =
      [] := by
    rw [List.filterMap_eq_nil_iff]
    intro al hal
    rw [if_neg (hws al (List.mem_of_mem_filter hal))]
  have hls0 : (ls.filter (fun a => enabled a.kind &&
      decide (severityRank minSev ≤ severityRank a.severity))).filterMap
      (fun a => if a.kind = AlertKind.separation then a.data else none) =
      [] := by
    rw [List.filterMap_eq_nil_iff]
    intro al hal
    rw [if_neg (hls al (List.mem_of_mem_filter hal))]
  rw [hws0, hls0, List.append_nil, List.append_nil]
  rw [List.filter_map, List.filterMap_map]
  have hgf : ((fun a : Alert =>
      if a.kind = AlertKind.separation then a.data else none) ∘
      mkSepAlert t) = fun c => some c := by
    funext c
    simp [mkSepAlert]
  rw [hgf]
  have hsome : (cs.filter ((fun a : Alert => enabled a.kind &&
      decide (severityRank minSev ≤ severityRank a.severity)) ∘
      mkSepAlert t)).filterMap (fun c => some c) =
      cs.filter ((fun a : Alert => enabled a.kind &&
        decide (severityRank minSev ≤ severityRank a.severity)) ∘
        mkSepAlert t) := by
    rw [show (fun c : Conflict => some c) = (some : Conflict → Option Conflict)
      from rfl, List.filterMap_some]
  rw [hsome]
  have hpred : ((fun a : Alert => enabled a.kind &&
      decide (severityRank minSev ≤ severityRank a.severity)) ∘
      mkSepAlert t) = (fun c : Conflict => enabled AlertKind.separation &&
      decide (severityRank minSev ≤ severityRank (mkSepAlert t c).severity)) :=
    rfl
  rw [hpred]
  apply jsMapDedup_eq_self
  exact hkeys.sublist ((List.filter_sublist _).map conflictKey)

theorem head_filter_of_head_mem {cs : List Conflict} {q : Conflict → Bool}
    {c0 : Conflict} (h0 : cs.head? = some c0) (hmem : c0 ∈ cs.filter q) :
    (cs.filter q).head? = some c0 := by
  cases cs with
  | nil => cases h0
  | cons c rest =>
    have hc : c = c0 := by
      injection h0 with h0
    subst hc
    rw [List.filter_cons_of_pos (List.of_mem_filter hmem)]
    rfl

theorem pairwise_head_le {cs : List Conflict}
    (hp : cs.Pairwise (fun x y => x.first_breach_s ≤ y.first_breach_s))
    {h0 : Conflict} (hh : cs.head? = some h0) :
    ∀ c ∈ cs, h0.first_breach_s ≤ c.first_breach_s := by
  cases cs with
  | nil => cases hh
  | cons c rest =>
    have hc : c = h0 := by
      injection hh with hh
    subst hc
    intro x hx
    rcases List.mem_cons.mp hx with rfl | hx2
    · exact le_refl _
    · exact (List.pairwise_cons.mp hp).1 x hx2

theorem reconcile_head_case (c0 : Conflict) (rest : List Conflict)
    (q : Conflict → Bool)
    (hkeys : ((c0 :: rest).map conflictKey).Nodup) :
    reconcileSelection ((c0 :: rest).head?) ((c0 :: rest).filter q) =
      ((c0 :: rest).filter q).head? := by
  show reconcileSelection (some c0) _ = _
  unfold reconcileSelection
  dsimp only
  by_cases hany : ((c0 :: rest).filter q).any
      (fun c2 => decide (sameConflict c2 c0)) = true
  · rw [if_pos hany]
    rcases List.any_eq_true.mp hany with ⟨c, hcvis, hkeyc⟩
    have hkey2 : conflictKey c = conflictKey c0 := by simpa [sameConflict] using hkeyc
    have hceq : c = c0 := List.inj_on_of_nodup_map hkeys
      (List.mem_of_mem_filter hcvis) (List.mem_cons_self _ _) hkey2
    have hc0vis : c0 ∈ (c0 :: rest).filter q := hceq ▸ hcvis
    rw [head_filter_of_head_mem (List.head?_cons) hc0vis]
  · rw [if_neg hany]

theorem selection_cases (prev : Option Conflict) (cs : List Conflict)
    (q : Conflict → Bool) (hkeys : (cs.map conflictKey).Nodup) :
    ((∃ p, prev = some p ∧
        ∃ c ∈ cs.filter q, sameConflict c p) →
      reconcileSelection (updateSelection prev cs) (cs.filter q) = prev) ∧
    ((¬∃ p, prev = some p ∧ ∃ c ∈ cs.filter q, sameConflict c p) →
      reconcileSelection (updateSelection prev cs) (cs.filter q) =
        (cs.filter q).head?) := by
  constructor
  · rintro ⟨p, hp, c, hcvis, hkeyc⟩
    subst hp
    have hcmem : c ∈ cs := List.mem_of_mem_filter hcvis
    have hni : ¬cs.isEmpty = true := by
      simp only [List.isEmpty_iff]
      exact List.ne_nil_of_mem hcmem
    unfold updateSelection
    rw [if_neg hni]
    dsimp only
    have hanycs : cs.any (fun c2 => decide (sameConflict c2 p)) = true :=
      List.any_eq_true.mpr ⟨c, hcmem, by simpa using hkeyc⟩
    rw [if_pos hanycs]
    unfold reconcileSelection
    dsimp only
    have hanyvis : (cs.filter q).any
        (fun c2 => decide (sameConflict c2 p)) = true :=
      List.any_eq_true.mpr ⟨c, hcvis, by simpa using hkeyc⟩
    rw [if_pos hanyvis]
  · intro hno
    cases hprev : prev with
    | none =>
      cases cs with
      | nil => rfl
      | cons c0 rest =>
        unfold updateSelection
        rw [if_neg (by simp)]
        dsimp only
        exact reconcile_head_case c0 rest q hkeys
    | some p =>
      subst hprev
      have hnop : ∀ c ∈ cs.filter q, ¬sameConflict c p := by
        intro c hc hk
        exact hno ⟨p, rfl, c, hc, hk⟩
      cases cs with
      | nil => rfl
      | cons c0 rest =>
        unfold updateSelection
        rw [if_neg (by simp)]
        dsimp only
        by_cases hanycs2 : (c0 :: rest).any
            (fun c2 => decide (sameConflict c2 p)) = true
        · rw [if_pos hanycs2]
          unfold reconcileSelection
          dsimp only
          have hanyvis_false : ((c0 :: rest).filter q).any
              (fun c2 => decide (sameConflict c2 p)) = false := by
            rw [List.any_eq_false]
            intro c hc
            simpa using hnop c hc
          rw [if_neg (by simp [hanyvis_false])]
        · rw [if_neg hanycs2]
          exact reconcile_head_case c0 rest q hkeys

/-- C3: after a tick's recompute and the selection-validity effect, a
previously selected conflict still present in the newly computed visible
conflict set (matched by unordered pair key) remains selected, even when a
more urgent conflict exists; otherwise the selection falls back to the
head of the visible set — whose `first_breach_s` is minimal over the
visible conflicts — or to `none` when no visible conflict exists. -/
theorem claim_C3_selectionStability (st : EngineState)
    (ac : List AircraftState) (timeMs nowMs : ℝ)
    (tracks : List ProjectedTrack) (sampler : ℝ → ℝ → ℝ → Option ℝ)
    (enabled : AlertKind → Bool) (minSev : AlertSeverity)
    (hn : (tracks.map (fun t => t.id)).Nodup) :
    ((∃ p, st.selected = some p ∧
        ∃ c ∈ visibleConflictsOf (recomputeTick st ac timeMs nowMs
          (some tracks) sampler).alerts enabled minSev, sameConflict c p) →
      postEffectSelection (recomputeTick st ac timeMs nowMs (some tracks)
        sampler) enabled minSev = st.selected) ∧
    ((¬∃ p, st.selected = some p ∧
        ∃ c ∈ visibleConflictsOf (recomputeTick st ac timeMs nowMs
          (some tracks) sampler).alerts enabled minSev, sameConflict c p) →
      postEffectSelection (recomputeTick st ac timeMs nowMs (some tracks)
        sampler) enabled minSev =
        (visibleConflictsOf (recomputeTick st ac timeMs nowMs (some tracks)
          sampler).alerts enabled minSev).head?) ∧
    (∀ h0, (visibleConflictsOf (recomputeTick st ac timeMs nowMs
        (some tracks) sampler).alerts enabled minSev).head? = some h0 →
      ∀ c ∈ visibleConflictsOf (recomputeTick st ac timeMs nowMs
        (some tracks) sampler).alerts enabled minSev,
        h0.first_breach_s ≤ c.first_breach_s) := by
  have hkeys := detect_keys_nodup tracks 5 1000 hn
  have hsorted := detect_sorted tracks 5 1000
  have hvis : visibleConflictsOf (recomputeTick st ac timeMs nowMs
      (some tracks) sampler).alerts enabled minSev =
      (detectSeparationConflicts tracks 5 1000).filter
        (fun c => enabled AlertKind.separation &&
          decide (severityRank minSev ≤ severityRank
            (mkSepAlert ⌊timeMs / 1000⌋ c).severity)) := by
    show visibleConflictsOf
      ((detectSeparationConflicts tracks 5 1000).map
        (mkSepAlert ⌊timeMs / 1000⌋) ++
        buildWeatherAlerts sampler ac timeMs st.weatherTimeISO ++
        buildLocalAlerts ac timeMs) enabled minSev = _
    apply visibleConflictsOf_eq_filter
    · intro al hal h
      rw [mem_buildWeatherAlerts_kind hal] at h
      cases h
    · intro al hal h
      rcases List.mem_append.mp hal with hvc | hwk
      · rcases List.mem_append.mp hvc with hv | hcg
        · rw [mem_verticalAlertsOf_kind hv] at h
          cases h
        · rw [mem_congestionAlertsOf_kind hcg] at h
          cases h
      · rw [mem_wakeAlertsOf_kind hwk] at h
        cases h
    · exact hkeys
  have hpost : postEffectSelection (recomputeTick st ac timeMs nowMs
      (some tracks) sampler) enabled minSev =
      reconcileSelection (updateSelection st.selected
        (detectSeparationConflicts tracks 5 1000))
        ((detectSeparationConflicts tracks 5 1000).filter
          (fun c => enabled AlertKind.separation &&
            decide (severityRank minSev ≤ severityRank
              (mkSepAlert ⌊timeMs / 1000⌋ c).severity))) := by
    unfold postEffectSelection
    rw [hvis]
    rfl
  have hcases := selection_cases st.selected
    (detectSeparationConflicts tracks 5 1000)
    (fun c => enabled AlertKind.separation &&
      decide (severityRank minSev ≤ severityRank
        (mkSepAlert ⌊timeMs / 1000⌋ c).severity)) hkeys
  refine ⟨?_, ?_, ?_⟩
  · intro hex
    rw [hpost]
    apply hcases.1
    rw [hvis] at hex
    exact hex
  · intro hno
    rw [hpost, hvis]
    apply hcases.2
    rw [hvis] at hno
    exact hno
  · intro h0 hh0 c hcmem
    rw [hvis] at hh0 hcmem
    exact pairwise_head_le
      (hsorted.sublist (List.filter_sublist _)) hh0 c hcmem

/-- Witness for C3 at a concrete empty tick: with no conflicts, the
selection falls back to none. -/
theorem claim_C3_witness :
    postEffectSelection (recomputeTick emptyState [] 0 0 (some []) nullSampler)
      (fun _ => true) AlertSeverity.info =
      (visibleConflictsOf (recomputeTick emptyState [] 0 0 (some [])
        nullSampler).alerts (fun _ => true) AlertSeverity.info).head? :=
  (claim_C3_selectionStability emptyState [] 0 0 [] nullSampler
    (fun _ => true) AlertSeverity.info (by simp)).2.1
    (by rintro ⟨p, hp, -⟩; cases hp)
